import Mathlib

/-!
# Product handlers (`src/handler.js`): embedding and verification

The five request handlers of `handler.js` (create, list-by-user, get, update,
delete) together with their two helpers (`response`, `sortByDate`) and the
inner `generateUpdateQuery` are embedded as pure functions.

* JavaScript strings are sequences of UTF-16 code units (`JsString`), so
  `trim`, `slice(0, -1)`, the relational operator on strings and template
  literals have exactly their JavaScript meaning.
* JavaScript values are the type `JVal`; an object is the list of its own
  enumerable properties in enumeration order.
* A handler run is the list of store requests it issued plus the way it
  completed (`Outcome`): it threw, its returned promise rejected, or it invoked
  the completion callback `callback(err, result)`.
* The language builtins `JSON.parse`, `JSON.stringify`, `uuidv4()` and
  `new Date().toISOString()` are inputs: the event carries the outcome of
  `JSON.parse(event.body)`, the environment carries the serialiser and the
  injected identifier and timestamp.
* A handler is a function of the settlement of its store request (`Db`), so
  its properties hold for every behaviour of the table; the properties that
  speak of the table's contents are stated over the model `Store`.
-/

namespace Handler

/-! ## Strings -/

/-- A JavaScript string: its UTF-16 code units. -/
abbrev JsString := List Nat

/-- UTF-16 encoding of one Unicode scalar value. -/
def utf16 (c : Char) : List Nat :=
  if c.toNat < 0x10000 then [c.toNat]
  else [0xD800 + (c.toNat - 0x10000) / 0x400, 0xDC00 + (c.toNat - 0x10000) % 0x400]

/-- The JavaScript string denoted by a source literal. -/
def js (s : String) : JsString := (s.toList.map utf16).flatten

/-- Code units removed by `String.prototype.trim`: WhiteSpace and LineTerminator
of ECMAScript (TAB, LF, VT, FF, CR, SP, NBSP, the Zs category, LS, PS, BOM). -/
def isJsWhitespace (u : Nat) : Bool :=
  u == 0x09 || u == 0x0A || u == 0x0B || u == 0x0C || u == 0x0D || u == 0x20 ||
  u == 0xA0 || u == 0x1680 || (0x2000 ≤ u && u ≤ 0x200A) || u == 0x2028 ||
  u == 0x2029 || u == 0x202F || u == 0x205F || u == 0x3000 || u == 0xFEFF

/-- `String.prototype.trim`. -/
def trim (s : JsString) : JsString :=
  ((s.dropWhile isJsWhitespace).reverse.dropWhile isJsWhitespace).reverse

/-- `s.slice(0, -1)`: the string without its last code unit. -/
def sliceDropLast (s : JsString) : JsString := s.dropLast

/-- Lexicographic "less than" on code-unit sequences (the string case of the
abstract relational comparison). -/
def strLt : JsString → JsString → Bool
  | [], [] => false
  | [], _ :: _ => true
  | _ :: _, [] => false
  | a :: as, b :: bs => if a < b then true else if b < a then false else strLt as bs

/-! ## Values -/

/-- JavaScript values that can reach the handlers: results of `JSON.parse`,
path parameters and store results.  Finite numbers are rationals (`-0` is `0`). -/
inductive JVal where
  | undefined
  | null
  | bool (b : Bool)
  | num (q : ℚ)
  | str (s : JsString)
  | arr (xs : List JVal)
  | obj (props : List (JsString × JVal))

/-- Values that can be thrown or be a rejection reason. -/
inductive Thrown where
  /-- a native `TypeError` raised by the engine -/
  | typeError
  /-- a native `SyntaxError` raised by `JSON.parse` -/
  | syntaxError
  /-- any other value, such as the error object the store client rejects with -/
  | value (v : JVal)

/-- ToBoolean. -/
def truthy : JVal → Bool
  | .undefined => false
  | .null => false
  | .bool b => b
  | .num q => q != 0
  | .str s => !s.isEmpty
  | .arr _ => true
  | .obj _ => true

/-- Strict equality `===` between a value of the event and a value of another
origin: primitives compare by value, objects and arrays by identity (two values
of different origin are never the same object). -/
def strictEq : JVal → JVal → Bool
  | .undefined, .undefined => true
  | .null, .null => true
  | .bool a, .bool b => a == b
  | .num a, .num b => a == b
  | .str a, .str b => a == b
  | _, _ => false

/-- Decimal numeral of an array index. -/
def indexKey (i : Nat) : JsString := js (toString i)

/-- Own enumerable string-keyed properties, in enumeration order
(`Object.entries` on a non-nullish value). -/
def ownEntries : JVal → List (JsString × JVal)
  | .obj props => props
  | .arr xs => xs.enum.map (fun p => (indexKey p.1, p.2))
  | .str s => s.enum.map (fun p => (indexKey p.1, .str [p.2]))
  | _ => []

/-- Property read `v.k` for a data property name `k` (prototype methods are
not values of the model; they are called through `callTrim`, `arrayFilter`,
`arraySort`).  Reading a property of `undefined` or `null` throws. -/
def getProp (v : JVal) (k : JsString) : Except Thrown JVal :=
  match v with
  | .undefined => .error .typeError
  | .null => .error .typeError
  | .arr xs =>
    if k = js "length" then .ok (.num xs.length)
    else .ok (((ownEntries (.arr xs)).lookup k).getD .undefined)
  | .str s =>
    if k = js "length" then .ok (.num s.length)
    else .ok (((ownEntries (.str s)).lookup k).getD .undefined)
  | w => .ok (((ownEntries w).lookup k).getD .undefined)

/-- Method call `v.trim()`: defined on strings only; on every other value
`v.trim` is not a function and the call throws a `TypeError`. -/
def callTrim : JVal → Except Thrown JVal
  | .str s => .ok (.str (trim s))
  | _ => .error .typeError

/-- Assignment `o[k] = v` on an object: overwrite in place or append. -/
def setProp : List (JsString × JVal) → JsString → JVal → List (JsString × JVal)
  | [], k, v => [(k, v)]
  | (k0, v0) :: rest, k, v =>
    if k0 = k then (k0, v) :: rest else (k0, v0) :: setProp rest k v

/-! ## Environment, store requests and completion -/

/-- Builtins and injected primitives of one invocation. -/
structure Env where
  /-- `JSON.stringify` on a value other than `undefined` -/
  stringify : JVal → JsString
  /-- the operator `>` when its operands are not both strings -/
  relGt : JVal → JVal → Bool
  /-- the identifier returned by `uuidv4()` -/
  uuidv4 : JsString
  /-- the string returned by `new Date().toISOString()` -/
  isoNow : JsString
  /-- `process.env.TESTS_TABLE` -/
  productsTable : JVal

/-- The event fields the handlers read. -/
structure Event where
  /-- outcome of `JSON.parse(event.body)`: the parsed value, or the error thrown -/
  bodyParsed : Except Thrown JVal
  /-- `event.pathParameters` -/
  pathParameters : JVal

/-- Methods of the document client used by the handlers. -/
inductive DbMethod where
  | put | scan | get | update | delete
  deriving DecidableEq

/-- One request `db.method(params).promise()`. -/
structure DbCall where
  method : DbMethod
  params : JVal

/-- How the promise of a request settles: fulfilled with a result, or rejected
with an error object, given by its enumerable own properties. -/
abbrev Db := DbCall → Except (List (JsString × JVal)) JVal

/-- How an invocation completes. -/
inductive Outcome where
  /-- an exception propagates synchronously out of the handler -/
  | threw (e : Thrown)
  /-- the promise returned by the handler rejects, the callback is never invoked -/
  | rejected (e : Thrown)
  /-- the completion callback is invoked as `callback(err, result)` -/
  | callback (err : JVal) (result : JVal)

/-- An invocation: the store requests issued, in order, and the completion. -/
structure Run where
  calls : List DbCall
  outcome : Outcome

/-! ## Helpers of `handler.js` -/

/-- `JSON.stringify(v)`: `undefined` for `undefined`, a string otherwise. -/
def jsonStringify (E : Env) : JVal → JVal
  | .undefined => .undefined
  | v => .str (E.stringify v)

/-- The fixed CORS headers. -/
def corsHeaders : JVal :=
  .obj [(js "Access-Control-Allow-Origin", .str (js "*")),
        (js "Access-Control-Allow-Credentials", .bool true)]

/-- The object literal built by `response`. -/
def envelope (statusCode body : JVal) : JVal :=
  .obj [(js "statusCode", statusCode), (js "headers", corsHeaders), (js "body", body)]

/-- The source helper `response(statusCode, message)` (lines 8-15). -/
def response (E : Env) (statusCode message : JVal) : JVal :=
  envelope statusCode (jsonStringify E message)

/-- The source handler `(err) => callback(null, response(err.statusCode, err))`.  A native
error has no `statusCode` and no enumerable own property, so it serialises to
the empty object; reading `statusCode` of a nullish reason throws inside the
handler, which rejects the returned promise. -/
def onRejected (E : Env) : Thrown → Outcome
  | .value v =>
    match getProp v (js "statusCode") with
    | .error e => .rejected e
    | .ok sc => .callback .null (response E sc v)
  | _ => .callback .null (envelope .undefined (.str (js "\x7b\x7d")))

/-- The chain `promise.then(onFulfilled).catch(onRejected)`: an exception
raised inside `onFulfilled` is handled by the same `catch`. -/
def thenCatch (E : Env) (settled : Except (List (JsString × JVal)) JVal)
    (onFulfilled : JVal → Except Thrown Outcome) : Outcome :=
  match settled with
  | .error err => onRejected E (.value (.obj err))
  | .ok res =>
    match onFulfilled res with
    | .ok o => o
    | .error e => onRejected E e

/-- `Array.prototype.filter` with a callback that may throw. -/
def arrayFilter (p : JVal → Except Thrown Bool) : List JVal → Except Thrown (List JVal)
  | [] => .ok []
  | x :: xs =>
    match p x with
    | .error e => .error e
    | .ok b =>
      match arrayFilter p xs with
      | .error e => .error e
      | .ok r => .ok (if b then x :: r else r)

/-- Method call `v.filter(p)`: defined on arrays only. -/
def callFilter (v : JVal) (p : JVal → Except Thrown Bool) : Except Thrown (List JVal) :=
  match v with
  | .arr xs => arrayFilter p xs
  | _ => .error .typeError

/-- Insertion of `x` before the first element `y` with `cmp x y < 0`. -/
def insertBy (cmp : JVal → JVal → Except Thrown Int) (x : JVal) :
    List JVal → Except Thrown (List JVal)
  | [] => .ok [x]
  | y :: ys =>
    match cmp x y with
    | .error e => .error e
    | .ok c =>
      if c < 0 then .ok (x :: y :: ys)
      else
        match insertBy cmp x ys with
        | .error e => .error e
        | .ok r => .ok (y :: r)

/-- The loop of the sort: the elements of `xs` are taken from left to right
and inserted into the sorted part `acc`. -/
def sortInto (cmp : JVal → JVal → Except Thrown Int) :
    List JVal → List JVal → Except Thrown (List JVal)
  | acc, [] => .ok acc
  | acc, x :: xs =>
    match insertBy cmp x acc with
    | .error e => .error e
    | .ok acc2 => sortInto cmp acc2 xs

/-- `Array.prototype.sort(cmp)` as a stable insertion sort driven by the sign of
the comparator: elements are taken in array order and each goes before the
first element it compares below, so elements that never compare below one
another keep their order, as in the engine's insertion and merge passes.  The
engine's algorithm is not fixed by the language; every comparison sort returns
this same array whenever the comparator orders the elements totally, which is
the case the properties below are about.  (The array never holds `undefined`:
the filter before it reads a property of each element.) -/
def arraySort (cmp : JVal → JVal → Except Thrown Int) (xs : List JVal) :
    Except Thrown (List JVal) :=
  sortInto cmp [] xs

/-- The operator `a > b`: on two strings, code-unit order. -/
def jsGt (E : Env) : JVal → JVal → Bool
  | .str x, .str y => strLt y x
  | a, b => E.relGt a b

/-- The source comparator `sortByDate` (line 18): `a.createdAt > b.createdAt ? -1 : 1`. -/
def sortByDate (E : Env) (a b : JVal) : Except Thrown Int :=
  match getProp a (js "createdAt") with
  | .error e => .error e
  | .ok x =>
    match getProp b (js "createdAt") with
    | .error e => .error e
    | .ok y => .ok (if jsGt E x y then -1 else 1)

/-! ## The handlers -/

/-- One of the four tests `!reqBody.k || reqBody.k.trim() === ''` (lines 25-28). -/
def fieldRequired (reqBody : JVal) (k : JsString) : Except Thrown Bool :=
  match getProp reqBody k with
  | .error e => .error e
  | .ok v =>
    if !truthy v then .ok true
    else
      match callTrim v with
      | .error e => .error e
      | .ok t => .ok (strictEq t (.str []))

/-- The validation message of `createProduct`. -/
def validationError : JVal :=
  .obj [(js "error", .str (js "Product must contains: name, image url, description and price"))]

/-- The object literal `product` (lines 34-42); the four reads cannot throw
here because the same reads succeeded during validation. -/
def mkProduct (E : Env) (userId reqBody : JVal) : Except Thrown JVal :=
  match getProp reqBody (js "name") with
  | .error e => .error e
  | .ok name =>
  match getProp reqBody (js "imageUrl") with
  | .error e => .error e
  | .ok imageUrl =>
  match getProp reqBody (js "description") with
  | .error e => .error e
  | .ok description =>
  match getProp reqBody (js "price") with
  | .error e => .error e
  | .ok price =>
    .ok (.obj [(js "id", .str E.uuidv4), (js "createdAt", .str E.isoNow),
               (js "userId", userId), (js "name", name), (js "imageUrl", imageUrl),
               (js "description", description), (js "price", price)])

/-- The source handler `createProduct` (lines 21-54). -/
def createProduct (E : Env) (db : Db) (event : Event) : Run :=
  match event.bodyParsed with
  | .error e => ⟨[], .threw e⟩
  | .ok reqBody =>
  match getProp event.pathParameters (js "userId") with
  | .error e => ⟨[], .threw e⟩
  | .ok userId =>
  match fieldRequired reqBody (js "name") with
  | .error e => ⟨[], .threw e⟩
  | .ok nameRequired =>
  match fieldRequired reqBody (js "imageUrl") with
  | .error e => ⟨[], .threw e⟩
  | .ok imageUrlRequired =>
  match fieldRequired reqBody (js "description") with
  | .error e => ⟨[], .threw e⟩
  | .ok descriptionRequired =>
  match fieldRequired reqBody (js "price") with
  | .error e => ⟨[], .threw e⟩
  | .ok priceRequired =>
    if nameRequired || imageUrlRequired || descriptionRequired || priceRequired then
      ⟨[], .callback .null (response E (.num 400) validationError)⟩
    else
      match mkProduct E userId reqBody with
      | .error e => ⟨[], .threw e⟩
      | .ok product =>
        let call : DbCall :=
          ⟨.put, .obj [(js "TableName", E.productsTable), (js "Item", product)]⟩
        ⟨[call], thenCatch E (db call) (fun _ =>
          .ok (.callback .null (response E (.num 201) product)))⟩

/-- The source handler `getProductsByUserId` (lines 57-66). -/
def getProductsByUserId (E : Env) (db : Db) (event : Event) : Run :=
  match getProp event.pathParameters (js "userId") with
  | .error e => ⟨[], .threw e⟩
  | .ok userId =>
    let call : DbCall := ⟨.scan, .obj [(js "TableName", E.productsTable)]⟩
    ⟨[call], thenCatch E (db call) (fun res =>
      match getProp res (js "Items") with
      | .error e => .error e
      | .ok items =>
        match callFilter items (fun data =>
            match getProp data (js "userId") with
            | .error e => .error e
            | .ok u => .ok (strictEq u userId)) with
        | .error e => .error e
        | .ok kept =>
          match arraySort (sortByDate E) kept with
          | .error e => .error e
          | .ok sorted => .ok (.callback .null (response E (.num 200) (.arr sorted))))⟩

/-- The source handler `getProduct` (lines 69-87).  In the not-found branch the source
calls `callback(404, response(\x7berror: ...\x7d))`: the first argument of the
callback is `404`, and `response` receives the error object as `statusCode`
and no `message`. -/
def getProduct (E : Env) (db : Db) (event : Event) : Run :=
  match getProp event.pathParameters (js "id") with
  | .error e => ⟨[], .threw e⟩
  | .ok productId =>
    let call : DbCall :=
      ⟨.get, .obj [(js "TableName", E.productsTable),
                   (js "Key", .obj [(js "id", productId)])]⟩
    ⟨[call], thenCatch E (db call) (fun res =>
      match getProp res (js "Item") with
      | .error e => .error e
      | .ok item =>
        if truthy item then .ok (.callback .null (response E (.num 200) item))
        else .ok (.callback (.num 404)
          (response E (.obj [(js "error", .str (js "Product not found .."))]) .undefined)))⟩

/-- One step of the `forEach` of `generateUpdateQuery` (lines 103-105). -/
def updateStep (acc : JsString × List (JsString × JVal) × List (JsString × JVal))
    (kv : JsString × JVal) : JsString × List (JsString × JVal) × List (JsString × JVal) :=
  (acc.1 ++ (js " #" ++ kv.1 ++ js " = :" ++ kv.1 ++ js ","),
   setProp acc.2.1 (js "#" ++ kv.1) (.str kv.1),
   setProp acc.2.2 (js ":" ++ kv.1) kv.2)

/-- The result of `generateUpdateQuery`. -/
structure UpdateQuery where
  UpdateExpression : JsString
  ExpressionAttributeNames : List (JsString × JVal)
  ExpressionAttributeValues : List (JsString × JVal)

/-- The object `attributesParams` once the `forEach` over `entries` has run and
the last code unit of its `UpdateExpression` has been sliced off (lines 97-108). -/
def attributesParamsOf (entries : List (JsString × JVal)) : UpdateQuery :=
  let r := entries.foldl updateStep (js "SET", [], [])
  ⟨sliceDropLast r.1, r.2.1, r.2.2⟩

/-- `Object.entries(v)`: throws on `undefined` and `null`. -/
def objectEntries (v : JVal) : Except Thrown (List (JsString × JVal)) :=
  match v with
  | .undefined => .error .typeError
  | .null => .error .typeError
  | w => .ok (ownEntries w)

/-- The inner function `generateUpdateQuery` (lines 96-111). -/
def generateUpdateQuery (dataFields : JVal) : Except Thrown UpdateQuery :=
  match objectEntries dataFields with
  | .error e => .error e
  | .ok entries => .ok (attributesParamsOf entries)

/-- The object literal `params` of `updateProduct` (lines 115-123). -/
def updateParams (E : Env) (id : JVal) (q : UpdateQuery) : JVal :=
  .obj [(js "Key", .obj [(js "id", id)]),
        (js "TableName", E.productsTable),
        (js "ConditionExpression", .str (js "attribute_exists(id)")),
        (js "UpdateExpression", .str q.UpdateExpression),
        (js "ExpressionAttributeNames", .obj q.ExpressionAttributeNames),
        (js "ExpressionAttributeValues", .obj q.ExpressionAttributeValues),
        (js "ReturnValues", .str (js "UPDATED_NEW"))]

/-- The source handler `updateProduct` (lines 90-132). -/
def updateProduct (E : Env) (db : Db) (event : Event) : Run :=
  match getProp event.pathParameters (js "id") with
  | .error e => ⟨[], .threw e⟩
  | .ok id =>
  match event.bodyParsed with
  | .error e => ⟨[], .threw e⟩
  | .ok reqBody =>
  match generateUpdateQuery reqBody with
  | .error e => ⟨[], .threw e⟩
  | .ok expression =>
    let call : DbCall := ⟨.update, updateParams E id expression⟩
    ⟨[call], thenCatch E (db call) (fun res =>
      match getProp res (js "Attributes") with
      | .error e => .error e
      | .ok attrs => .ok (.callback .null (response E (.num 200) attrs)))⟩

/-- The success payload of `deleteProduct`. -/
def deletedMessage : JVal :=
  .obj [(js "message", .str (js "Product has been deleted successfully!"))]

/-- The source handler `deleteProduct` (lines 134-146). -/
def deleteProduct (E : Env) (db : Db) (event : Event) : Run :=
  match getProp event.pathParameters (js "id") with
  | .error e => ⟨[], .threw e⟩
  | .ok productId =>
    let call : DbCall :=
      ⟨.delete, .obj [(js "TableName", E.productsTable),
                      (js "Key", .obj [(js "id", productId)])]⟩
    ⟨[call], thenCatch E (db call) (fun _ =>
      .ok (.callback .null (response E (.num 200) deletedMessage)))⟩

/-! ## The document store

The table is external to the handlers.  It is modelled as the list of its
items, keyed by the string attribute `id`, with the part of the document
client contract that the handlers exercise: unconditional `put` and `delete`,
`get` by key, `scan`, and `update` with an update expression made of a `SET`
clause of `#name = :value` assignments, the condition `attribute_exists(id)`
and `ReturnValues: 'UPDATED_NEW'`.  The limits the service puts on the names
and values of a request and on the size of an item (`Limits`) are parameters
of the model; `put` is modelled for requests within them. -/

/-- The table: its items. -/
abbrev Store := List JVal

/-- The primary key of an item: its string attribute `id`. -/
def itemKey (it : JVal) : Option JsString :=
  match getProp it (js "id") with
  | .ok (.str k) => some k
  | _ => none

/-- Point lookup by primary key. -/
def Store.find (s : Store) (k : JsString) : Option JVal :=
  List.find? (fun it => itemKey it == some k) s

/-- Property read that yields `undefined` where the read would throw. -/
def propD (v : JVal) (k : JsString) : JVal :=
  match getProp v k with
  | .ok w => w
  | .error _ => .undefined

/-- The key `params.Key.id` of a request, when it is a string. -/
def requestKey (params : JVal) : Option JsString :=
  match propD (propD params (js "Key")) (js "id") with
  | .str k => some k
  | _ => none

/-- Error object the client rejects with; the service answers both kinds with
HTTP status 400. -/
def storeError (code : String) : List (JsString × JVal) :=
  [(js "code", .str (js code)), (js "statusCode", .num 400)]

/-- Rejection of a malformed request. -/
def validationException : List (JsString × JVal) := storeError "ValidationException"

/-- Rejection of a write whose condition does not hold. -/
def conditionalCheckFailed : List (JsString × JVal) :=
  storeError "ConditionalCheckFailedException"

/-- Code units of a placeholder after its `#` or `:`: ASCII letters, digits,
underscore. -/
def isIdentUnit (u : Nat) : Bool :=
  (48 ≤ u && u ≤ 57) || (65 ≤ u && u ≤ 90) || (97 ≤ u && u ≤ 122) || u == 95

/-- Blank between the tokens of an expression. -/
def isBlank (u : Nat) : Bool := u == 32

/-- All elements are present. -/
def allSome {α : Type} : List (Option α) → Option (List α)
  | [] => some []
  | none :: _ => none
  | some a :: rest =>
    match allSome rest with
    | none => none
    | some r => some (a :: r)

/-- One assignment `#name = :value` of a `SET` clause: the two placeholders. -/
def parseAction (seg : JsString) : Option (JsString × JsString) :=
  match seg.dropWhile isBlank with
  | [] => none
  | c1 :: r1 =>
    if c1 ≠ 35 then none
    else
      match (r1.dropWhile isIdentUnit).dropWhile isBlank with
      | [] => none
      | c2 :: r2 =>
        if c2 ≠ 61 then none
        else
          match r2.dropWhile isBlank with
          | [] => none
          | c3 :: r3 =>
            if c3 ≠ 58 then none
            else if r1.takeWhile isIdentUnit = [] then none
            else if r3.takeWhile isIdentUnit = [] then none
            else if (r3.dropWhile isIdentUnit).dropWhile isBlank ≠ [] then none
            else some (35 :: r1.takeWhile isIdentUnit, 58 :: r3.takeWhile isIdentUnit)

/-- An update expression of the supported form: the keyword `SET` followed by
assignments separated by commas. -/
def parseUpdateExpression (e : JsString) : Option (List (JsString × JsString)) :=
  if e.take 3 = js "SET" then allSome (((e.drop 3).splitOn 44).map parseAction)
  else none

/-- Resolution of the placeholders of the assignments through
`ExpressionAttributeNames` and `ExpressionAttributeValues`. -/
def resolveActions (names values : JVal) (acts : List (JsString × JsString)) :
    Option (List (JsString × JVal)) :=
  allSome (acts.map (fun a =>
    match (ownEntries names).lookup a.1, (ownEntries values).lookup a.2 with
    | some (.str attr), some v => some (attr, v)
    | _, _ => none))

/-- The item after the assignments `sets`. -/
def applySets (props : List (JsString × JVal)) (sets : List (JsString × JVal)) :
    List (JsString × JVal) :=
  sets.foldl (fun acc kv => setProp acc kv.1 kv.2) props

/-- The result of an update: with `UPDATED_NEW`, the assigned attributes with
their new values. -/
def updateResult (params : JVal) (sets : List (JsString × JVal)) : JVal :=
  match propD params (js "ReturnValues") with
  | .str r => if r = js "UPDATED_NEW" then .obj [(js "Attributes", .obj sets)] else .obj []
  | _ => .obj []

/-- The limits of the service that do not depend on the shape of a request:
lengths of attribute names, range and precision of numbers, sizes and nesting
of values, size of an item. -/
structure Limits where
  /-- the attribute names and values assigned by an update request are within
  the limits on names and values -/
  admitsValues : List (JsString × JVal) → Bool
  /-- an item, given by its attributes, is within the limits on items -/
  admitsItem : List (JsString × JVal) → Bool

/-- The request `update`: rejected when the expression is malformed, a
placeholder is undeclared, the key attribute is assigned, an attribute is
assigned twice or an assigned name or value is outside the limits; with the
condition `attribute_exists(id)` rejected when no item has the key; without
condition the item is created when missing; rejected when the item it would
leave is outside the limits. -/
def Store.update (L : Limits) (s : Store) (params : JVal) :
    Except (List (JsString × JVal)) JVal × Store :=
  match requestKey params, propD params (js "UpdateExpression") with
  | some k, .str e =>
    match parseUpdateExpression e with
    | none => (.error validationException, s)
    | some acts =>
      match resolveActions (propD params (js "ExpressionAttributeNames"))
          (propD params (js "ExpressionAttributeValues")) acts with
      | none => (.error validationException, s)
      | some sets =>
        if js "id" ∈ sets.map Prod.fst ∨ ¬ (sets.map Prod.fst).Nodup then
          (.error validationException, s)
        else if L.admitsValues sets = false then (.error validationException, s)
        else
          match propD params (js "ConditionExpression"), Store.find s k with
          | .str c, some it =>
            if c = js "attribute_exists(id)" then
              if L.admitsItem (applySets (ownEntries it) sets) = false then
                (.error validationException, s)
              else
                (.ok (updateResult params sets),
                 List.map (fun x => if itemKey x == some k
                   then .obj (applySets (ownEntries it) sets) else x) s)
            else (.error validationException, s)
          | .str c, none =>
            if c = js "attribute_exists(id)" then (.error conditionalCheckFailed, s)
            else (.error validationException, s)
          | .undefined, some it =>
            if L.admitsItem (applySets (ownEntries it) sets) = false then
              (.error validationException, s)
            else
              (.ok (updateResult params sets),
               List.map (fun x => if itemKey x == some k
                 then .obj (applySets (ownEntries it) sets) else x) s)
          | .undefined, none =>
            if L.admitsItem (applySets [(js "id", .str k)] sets) = false then
              (.error validationException, s)
            else
              (.ok (updateResult params sets),
               s ++ [.obj (applySets [(js "id", .str k)] sets)])
          | _, _ => (.error validationException, s)
  | _, _ => (.error validationException, s)

/-- The settlement of a request and the table after it. -/
def Store.exec (L : Limits) (s : Store) (c : DbCall) :
    Except (List (JsString × JVal)) JVal × Store :=
  match c.method with
  | .put =>
    match itemKey (propD c.params (js "Item")) with
    | some k =>
      (.ok (.obj []), propD c.params (js "Item") :: List.filter (fun it => itemKey it != some k) s)
    | none => (.error validationException, s)
  | .scan => (.ok (.obj [(js "Items", .arr s)]), s)
  | .get =>
    match requestKey c.params with
    | some k =>
      match Store.find s k with
      | some it => (.ok (.obj [(js "Item", it)]), s)
      | none => (.ok (.obj []), s)
    | none => (.error validationException, s)
  | .update => Store.update L s c.params
  | .delete =>
    match requestKey c.params with
    | some k => (.ok (.obj []), List.filter (fun it => itemKey it != some k) s)
    | none => (.error validationException, s)

/-- The settlements the handlers observe when the table is `s`. -/
def Store.db (L : Limits) (s : Store) : Db := fun c => (Store.exec L s c).1

/-- The table after the requests `calls`. -/
def Store.after (L : Limits) (s : Store) (calls : List DbCall) : Store :=
  calls.foldl (fun st c => (Store.exec L st c).2) s

mutual
/-- A serialiser for closed instances: JSON-like text that tells apart the
values of the instances below (strings are quoted without escapes, numbers
are written as numerator and denominator). -/
def render : JVal → JsString
  | .undefined => js "undefined"
  | .null => js "null"
  | .bool b => if b then js "true" else js "false"
  | .num q => js (toString q.num) ++ 47 :: js (toString q.den)
  | .str t => 34 :: (t ++ [34])
  | .arr xs => 91 :: (renderItems xs ++ [93])
  | .obj props => 123 :: (renderProps props ++ [125])
/-- The elements of an array, each followed by a comma. -/
def renderItems : List JVal → JsString
  | [] => []
  | x :: xs => render x ++ 44 :: renderItems xs
/-- The properties of an object, each followed by a comma. -/
def renderProps : List (JsString × JVal) → JsString
  | [] => []
  | (k, v) :: rest => 34 :: (k ++ 34 :: 58 :: (render v ++ 44 :: renderProps rest))
end

/-- A concrete environment for closed instances. -/
def sampleEnv : Env :=
  ⟨render, fun _ _ => false, js "id-1", js "2024-01-01T00:00:00.000Z",
   .str (js "products")⟩

/-- Concrete limits for closed instances: an assigned number has magnitude
below 10^126 and an attribute name has at most 65535 code units; every item
is admitted. -/
def sampleLimits : Limits :=
  ⟨fun sets => sets.all (fun kv =>
      decide (kv.1.length ≤ 65535) &&
      match kv.2 with
      | .num q => decide (q.num.natAbs < 10 ^ 126 * q.den)
      | _ => true),
   fun _ => true⟩

/-- A concrete product. -/
def sampleProduct : JVal :=
  .obj [(js "id", .str (js "p1")), (js "createdAt", .str (js "2023-05-01T10:00:00.000Z")),
        (js "userId", .str (js "u1")), (js "name", .str (js "Mug")),
        (js "imageUrl", .str (js "http://img/mug.png")),
        (js "description", .str (js "A mug")), (js "price", .str (js "10"))]

/-- A concrete table holding one product. -/
def sampleStore : Store := [sampleProduct]

/-- Path parameters naming the product of `sampleStore`. -/
def samplePath : JVal := .obj [(js "id", .str (js "p1")), (js "userId", .str (js "u1"))]

/-- A product of user "u1", the older one. -/
def sampleItemA : JVal :=
  .obj [(js "id", .str (js "a")), (js "createdAt", .str (js "2023-05-01T10:00:00.000Z")),
        (js "userId", .str (js "u1"))]

/-- A product of user "u2". -/
def sampleItemB : JVal :=
  .obj [(js "id", .str (js "b")), (js "createdAt", .str (js "2024-02-11T08:30:00.000Z")),
        (js "userId", .str (js "u2"))]

/-- A product of user "u1", the newer one. -/
def sampleItemC : JVal :=
  .obj [(js "id", .str (js "c")), (js "createdAt", .str (js "2024-02-11T08:30:00.001Z")),
        (js "userId", .str (js "u1"))]

/-- A concrete table holding three products of two users, in scan order. -/
def sampleTable : Store := [sampleItemA, sampleItemB, sampleItemC]

/-- A creation body with a blank `imageUrl` and no `description`. -/
def sampleInvalidBody : JVal :=
  .obj [(js "name", .str (js "Mug")), (js "imageUrl", .str (js "   ")),
        (js "price", .str (js "10"))]

/-- A valid creation body. -/
def sampleValidBody : JVal :=
  .obj [(js "name", .str (js " Mug ")), (js "imageUrl", .str (js "http://img/mug.png")),
        (js "description", .str (js "A mug")), (js "price", .str (js "10"))]

/-- A valid creation body but for its numeric `price`. -/
def sampleNumericPriceBody : JVal :=
  .obj [(js "name", .str (js "Mug")), (js "imageUrl", .str (js "http://img/mug.png")),
        (js "description", .str (js "A mug")), (js "price", .num 20)]

/-! ## Specification vocabulary -/

/-- The four caller-supplied fields of a product. -/
def requiredFields : List JsString :=
  [js "name", js "imageUrl", js "description", js "price"]

/-- The field `k` of the body is absent or a string. -/
def AbsentOrString (reqBody : JVal) (k : JsString) : Prop :=
  getProp reqBody k = .ok .undefined ∨ ∃ s, getProp reqBody k = .ok (.str s)

/-- The field `k` of the body is absent, or a string that is empty after trimming. -/
def MissingOrBlank (reqBody : JVal) (k : JsString) : Prop :=
  getProp reqBody k = .ok .undefined ∨
    ∃ s, getProp reqBody k = .ok (.str s) ∧ trim s = []

/-- The scanned item `it` is retained by the filter `data.userId === userId`. -/
def ownedBy (userId it : JVal) : Bool :=
  match getProp it (js "userId") with
  | .ok u => strictEq u userId
  | .error _ => false

/-- The attribute `userId` of the item `it` is the string `u`. -/
def hasUserId (u : JsString) (it : JVal) : Bool :=
  match getProp it (js "userId") with
  | .ok (.str t) => decide (t = u)
  | _ => false

/-- Item `a` has a string `createdAt` strictly greater, in code-unit order,
than the string `createdAt` of item `b`. -/
def NewerThan (a b : JVal) : Prop :=
  ∃ x y, getProp a (js "createdAt") = .ok (.str x) ∧
    getProp b (js "createdAt") = .ok (.str y) ∧ strLt y x = true

/-- The text of one assignment of the update clause, for the field `k`. -/
def assignmentText (k : JsString) : JsString := js " #" ++ k ++ js " = :" ++ k

/-- The product assembled from the injected id and timestamp, the owner and
the four caller-supplied strings. -/
def productOf (E : Env) (userId : JVal) (name imageUrl description price : JsString) : JVal :=
  .obj [(js "id", .str E.uuidv4), (js "createdAt", .str E.isoNow), (js "userId", userId),
        (js "name", .str name), (js "imageUrl", .str imageUrl),
        (js "description", .str description), (js "price", .str price)]

/-- A field name that can serve as a placeholder of the update expression and
is not the key attribute: a non-empty word of ASCII letters, digits and
underscore other than `id`. -/
def UpdatableField (k : JsString) : Prop :=
  k ≠ [] ∧ (∀ u ∈ k, isIdentUnit u = true) ∧ k ≠ js "id"

/-- The field `k` of the body is absent, falsy or a string. -/
def FalsyOrString (reqBody : JVal) (k : JsString) : Prop :=
  ∃ v, getProp reqBody k = .ok v ∧ (truthy v = false ∨ ∃ s, v = .str s)

/-- The invocation completed by handing a response envelope to the completion
callback through its result channel (error argument `null`). -/
def Delivered (o : Outcome) : Prop :=
  ∃ statusCode body, o = .callback .null (envelope statusCode body)

/-! ## Validation lemmas -/

theorem trim_nil : trim [] = [] := rfl

theorem fieldRequired_of_missingOrBlank {reqBody : JVal} {k : JsString}
    (h : MissingOrBlank reqBody k) : fieldRequired reqBody k = .ok true := by
  rcases h with h | ⟨s, h, ht⟩
  · simp [fieldRequired, h, truthy]
  · cases s with
    | nil => simp [fieldRequired, h, truthy]
    | cons a t => simp [fieldRequired, h, truthy, callTrim, strictEq, ht]

theorem fieldRequired_of_absentOrString {reqBody : JVal} {k : JsString}
    (h : AbsentOrString reqBody k) : ∃ b, fieldRequired reqBody k = .ok b := by
  rcases h with h | ⟨s, h⟩
  · exact ⟨true, by simp [fieldRequired, h, truthy]⟩
  · cases s with
    | nil => exact ⟨true, by simp [fieldRequired, h, truthy]⟩
    | cons a t => exact ⟨_, by simp [fieldRequired, h, truthy, callTrim]; rfl⟩

theorem fieldRequired_of_nonblank {reqBody : JVal} {k s : JsString}
    (h : getProp reqBody k = .ok (.str s)) (ht : trim s ≠ []) :
    fieldRequired reqBody k = .ok false := by
  cases s with
  | nil => exact absurd trim_nil ht
  | cons a t => simp [fieldRequired, h, truthy, callTrim, strictEq, ht]

/-- C1: when each of name, imageUrl, description and price is absent or a
string and at least one of them is absent or blank after trimming,
`createProduct` invokes the callback with error `null` and the envelope of
status 400 whose body is the serialisation of the one fixed validation
message, and it issues no store request at all. -/
theorem createProduct_invalid_400 (E : Env) (db : Db) (pathParameters userId reqBody : JVal)
    (hu : getProp pathParameters (js "userId") = .ok userId)
    (hall : ∀ k ∈ requiredFields, AbsentOrString reqBody k)
    (hbad : ∃ k ∈ requiredFields, MissingOrBlank reqBody k) :
    createProduct E db ⟨.ok reqBody, pathParameters⟩ =
      ⟨[], .callback .null
        (.obj [(js "statusCode", .num 400), (js "headers", corsHeaders),
               (js "body", .str (E.stringify (.obj [(js "error",
                  .str (js "Product must contains: name, image url, description and price"))])))])⟩ := by
  obtain ⟨b1, h1⟩ := fieldRequired_of_absentOrString (hall (js "name") (by simp [requiredFields]))
  obtain ⟨b2, h2⟩ := fieldRequired_of_absentOrString (hall (js "imageUrl") (by simp [requiredFields]))
  obtain ⟨b3, h3⟩ := fieldRequired_of_absentOrString (hall (js "description") (by simp [requiredFields]))
  obtain ⟨b4, h4⟩ := fieldRequired_of_absentOrString (hall (js "price") (by simp [requiredFields]))
  have hor : (b1 || b2 || b3 || b4) = true := by
    obtain ⟨k, hk, hb⟩ := hbad
    have hr := fieldRequired_of_missingOrBlank hb
    simp only [requiredFields, List.mem_cons, List.mem_singleton, List.not_mem_nil, or_false] at hk
    rcases hk with rfl | rfl | rfl | rfl
    · rw [h1] at hr; cases hr; simp
    · rw [h2] at hr; cases hr; simp
    · rw [h3] at hr; cases hr; simp
    · rw [h4] at hr; cases hr; simp
  simp only [createProduct, hu, h1, h2, h3, h4, hor, if_true, response, envelope, jsonStringify,
    validationError]

theorem createProduct_run_of_valid (E : Env) (db : Db) (pathParameters userId reqBody : JVal)
    (name imageUrl description price : JsString)
    (hu : getProp pathParameters (js "userId") = .ok userId)
    (hn : getProp reqBody (js "name") = .ok (.str name)) (hn0 : trim name ≠ [])
    (hi : getProp reqBody (js "imageUrl") = .ok (.str imageUrl)) (hi0 : trim imageUrl ≠ [])
    (hd : getProp reqBody (js "description") = .ok (.str description))
    (hd0 : trim description ≠ [])
    (hp : getProp reqBody (js "price") = .ok (.str price)) (hp0 : trim price ≠ []) :
    createProduct E db ⟨.ok reqBody, pathParameters⟩ =
      ⟨[⟨.put, .obj [(js "TableName", E.productsTable),
          (js "Item", productOf E userId name imageUrl description price)]⟩],
       thenCatch E (db ⟨.put, .obj [(js "TableName", E.productsTable),
          (js "Item", productOf E userId name imageUrl description price)]⟩)
        (fun _ => .ok (.callback .null
          (response E (.num 201) (productOf E userId name imageUrl description price))))⟩ := by
  simp only [createProduct, hu, fieldRequired_of_nonblank hn hn0, fieldRequired_of_nonblank hi hi0,
    fieldRequired_of_nonblank hd hd0, fieldRequired_of_nonblank hp hp0, mkProduct, hn, hi, hd, hp,
    productOf, Bool.or_self, Bool.false_eq_true, if_false]

/-- C2: when name, imageUrl, description and price are all strings that are
non-empty after trimming and the store write succeeds, `createProduct` issues
exactly one request, a `put` whose parameters are only the table name and the
item (no condition), where the item is the product built from the injected id
and timestamp, the path parameter `userId` and the four input strings
unchanged; it then invokes the callback with error `null` and the envelope of
status 201 whose body is the serialisation of that same item. -/
theorem createProduct_valid_201 (E : Env) (db : Db) (pathParameters userId reqBody r : JVal)
    (name imageUrl description price : JsString)
    (hu : getProp pathParameters (js "userId") = .ok userId)
    (hn : getProp reqBody (js "name") = .ok (.str name)) (hn0 : trim name ≠ [])
    (hi : getProp reqBody (js "imageUrl") = .ok (.str imageUrl)) (hi0 : trim imageUrl ≠ [])
    (hd : getProp reqBody (js "description") = .ok (.str description))
    (hd0 : trim description ≠ [])
    (hp : getProp reqBody (js "price") = .ok (.str price)) (hp0 : trim price ≠ [])
    (hdb : db ⟨.put, .obj [(js "TableName", E.productsTable), (js "Item",
      .obj [(js "id", .str E.uuidv4), (js "createdAt", .str E.isoNow), (js "userId", userId),
            (js "name", .str name), (js "imageUrl", .str imageUrl),
            (js "description", .str description), (js "price", .str price)])]⟩ = .ok r) :
    createProduct E db ⟨.ok reqBody, pathParameters⟩ =
      ⟨[⟨.put, .obj [(js "TableName", E.productsTable), (js "Item",
          .obj [(js "id", .str E.uuidv4), (js "createdAt", .str E.isoNow), (js "userId", userId),
                (js "name", .str name), (js "imageUrl", .str imageUrl),
                (js "description", .str description), (js "price", .str price)])]⟩],
       .callback .null
        (.obj [(js "statusCode", .num 201), (js "headers", corsHeaders),
               (js "body", .str (E.stringify
          (.obj [(js "id", .str E.uuidv4), (js "createdAt", .str E.isoNow), (js "userId", userId),
                (js "name", .str name), (js "imageUrl", .str imageUrl),
                (js "description", .str description), (js "price", .str price)])))])⟩ := by
  rw [createProduct_run_of_valid E db pathParameters userId reqBody name imageUrl description price
    hu hn hn0 hi hi0 hd hd0 hp hp0]
  simp only [productOf, hdb, thenCatch, response, envelope, jsonStringify]

/-! ## Ordering lemmas -/

theorem strLt_trans : ∀ a b c : JsString, strLt a b = true → strLt b c = true →
    strLt a c = true
  | [], [], _, h, _ => by simp [strLt] at h
  | [], _ :: _, [], _, h => by simp [strLt] at h
  | [], _ :: _, _ :: _, _, _ => by simp [strLt]
  | _ :: _, [], _, h, _ => by simp [strLt] at h
  | _ :: _, _ :: _, [], _, h => by simp [strLt] at h
  | x :: xs, y :: ys, z :: zs, h1, h2 => by
    simp only [strLt] at h1 h2 ⊢
    by_cases hxy : x < y
    · by_cases hyz : y < z
      · have : x < z := by omega
        simp [this]
      · by_cases hzy : z < y
        · simp [hyz, hzy] at h2
        · have : x < z := by omega
          simp [this]
    · by_cases hyx : y < x
      · simp [hxy, hyx] at h1
      · have hxy2 : x = y := by omega
        subst hxy2
        simp only [lt_self_iff_false, if_false] at h1
        by_cases hyz : x < z
        · simp [hyz]
        · by_cases hzy : z < x
          · simp [hyz, hzy] at h2
          · simp only [hyz, hzy, if_false] at h2 ⊢
            exact strLt_trans xs ys zs h1 h2

theorem strLt_total : ∀ a b : JsString, a ≠ b → strLt a b = true ∨ strLt b a = true
  | [], [], h => absurd rfl h
  | [], _ :: _, _ => by simp [strLt]
  | _ :: _, [], _ => by simp [strLt]
  | x :: xs, y :: ys, h => by
    simp only [strLt]
    by_cases hxy : x < y
    · simp [hxy]
    · by_cases hyx : y < x
      · simp [hyx]
      · have hxy2 : x = y := by omega
        subst hxy2
        have hne : xs ≠ ys := fun e => h (by rw [e])
        simpa using strLt_total xs ys hne

theorem NewerThan.trans {a b c : JVal} (h1 : NewerThan a b) (h2 : NewerThan b c) :
    NewerThan a c := by
  obtain ⟨x, y, hx, hy, hxy⟩ := h1
  obtain ⟨y2, z, hy2, hz, hyz⟩ := h2
  rw [hy] at hy2
  cases hy2
  exact ⟨x, z, hx, hz, strLt_trans z y x hyz hxy⟩

theorem getProp_obj (props : List (JsString × JVal)) (k : JsString) :
    getProp (.obj props) k = .ok ((props.lookup k).getD .undefined) := rfl

theorem arrayFilter_userId (userId : JVal) :
    ∀ items : List JVal, (∀ it ∈ items, ∃ props, it = .obj props) →
    arrayFilter (fun data =>
        match getProp data (js "userId") with
        | .error e => .error e
        | .ok u => .ok (strictEq u userId)) items = .ok (items.filter (ownedBy userId))
  | [], _ => rfl
  | it :: rest, h => by
    obtain ⟨props, rfl⟩ := h it (List.mem_cons_self _ _)
    have ih := arrayFilter_userId userId rest (fun x hx => h x (List.mem_cons_of_mem _ hx))
    have hg := getProp_obj props (js "userId")
    rw [arrayFilter, ih]
    simp only [hg, ownedBy, List.filter]
    cases strictEq ((List.lookup (js "userId") props).getD JVal.undefined) userId <;> rfl

theorem insertBy_sortByDate (E : Env) (x : JVal) (kx : JsString)
    (hx : getProp x (js "createdAt") = .ok (.str kx)) :
    ∀ r : List JVal,
      (∀ y ∈ r, ∃ ky, getProp y (js "createdAt") = .ok (.str ky) ∧ ky ≠ kx) →
      r.Pairwise NewerThan →
      ∃ r2, insertBy (sortByDate E) x r = .ok r2 ∧ r2.Perm (x :: r) ∧ r2.Pairwise NewerThan
  | [], _, _ => ⟨[x], rfl, List.Perm.refl _, List.pairwise_singleton _ _⟩
  | y :: ys, hk, hs => by
    obtain ⟨ky, hy, hne⟩ := hk y (List.mem_cons_self _ _)
    have hs2 := List.pairwise_cons.1 hs
    by_cases hlt : strLt ky kx = true
    · refine ⟨x :: y :: ys, ?_, List.Perm.refl _, ?_⟩
      · simp [insertBy, sortByDate, hx, hy, jsGt, hlt]
      · have hxy : NewerThan x y := ⟨kx, ky, hx, hy, hlt⟩
        refine List.pairwise_cons.2 ⟨?_, hs⟩
        intro z hz
        rcases List.mem_cons.1 hz with rfl | hz
        · exact hxy
        · exact hxy.trans (hs2.1 z hz)
    · obtain ⟨r2, hr, hperm, hsorted⟩ := insertBy_sortByDate E x kx hx ys
        (fun z hz => hk z (List.mem_cons_of_mem _ hz)) hs2.2
      have hyx : NewerThan y x := by
        rcases strLt_total ky kx hne with h | h
        · exact absurd h hlt
        · exact ⟨ky, kx, hy, hx, h⟩
      refine ⟨y :: r2, ?_, ?_, ?_⟩
      · simp [insertBy, sortByDate, hx, hy, jsGt, hlt, hr]
      · exact (List.Perm.cons y hperm).trans (List.Perm.swap x y ys)
      · refine List.pairwise_cons.2 ⟨?_, hsorted⟩
        intro z hz
        rcases List.mem_cons.1 (hperm.mem_iff.1 hz) with rfl | hz
        · exact hyx
        · exact hs2.1 z hz

theorem sortInto_sortByDate (E : Env) :
    ∀ xs acc : List JVal,
      (∀ a ∈ acc ++ xs, ∃ k, getProp a (js "createdAt") = .ok (.str k)) →
      (acc ++ xs).Pairwise
        (fun a b => getProp a (js "createdAt") ≠ getProp b (js "createdAt")) →
      acc.Pairwise NewerThan →
      ∃ r, sortInto (sortByDate E) acc xs = .ok r ∧ r.Perm (acc ++ xs) ∧ r.Pairwise NewerThan
  | [], acc, _, _, hs => ⟨acc, rfl, by simp, hs⟩
  | x :: xs, acc, hk, hd, hs => by
    obtain ⟨kx, hx⟩ := hk x (by simp)
    have hd2 := List.pairwise_append.1 hd
    have hkeys : ∀ y ∈ acc, ∃ ky, getProp y (js "createdAt") = .ok (.str ky) ∧ ky ≠ kx := by
      intro y hy
      obtain ⟨ky, hky⟩ := hk y (by simp [hy])
      refine ⟨ky, hky, ?_⟩
      rintro rfl
      exact hd2.2.2 y hy x (List.mem_cons_self _ _) (by rw [hx, hky])
    obtain ⟨acc2, h2, hperm2, hsorted2⟩ := insertBy_sortByDate E x kx hx acc hkeys hs
    have hperm3 : (acc2 ++ xs).Perm (acc ++ x :: xs) :=
      (hperm2.append_right xs).trans List.perm_middle.symm
    obtain ⟨r, hr, hperm, hsorted⟩ := sortInto_sortByDate E xs acc2
      (fun a ha => hk a (hperm3.mem_iff.1 ha))
      ((hperm3.pairwise_iff (fun h => Ne.symm h)).2 hd) hsorted2
    exact ⟨r, by simp [sortInto, h2, hr], hperm.trans hperm3, hsorted⟩

theorem arraySort_sortByDate (E : Env) (l : List JVal)
    (hk : ∀ a ∈ l, ∃ k, getProp a (js "createdAt") = .ok (.str k))
    (hd : l.Pairwise (fun a b => getProp a (js "createdAt") ≠ getProp b (js "createdAt"))) :
    ∃ r, arraySort (sortByDate E) l = .ok r ∧ r.Perm l ∧ r.Pairwise NewerThan :=
  sortInto_sortByDate E l [] (by simpa using hk) (by simpa using hd) List.Pairwise.nil

theorem hasUserId_iff (u : JsString) (it : JVal) :
    hasUserId u it = true ↔ getProp it (js "userId") = .ok (.str u) := by
  unfold hasUserId
  cases h : getProp it (js "userId") with
  | error e => simp
  | ok v => cases v <;> simp

theorem ownedBy_str (u : JsString) (it : JVal) : ownedBy (.str u) it = hasUserId u it := by
  unfold ownedBy hasUserId
  cases h : getProp it (js "userId") with
  | error e => rfl
  | ok v =>
    cases v <;> simp [strictEq]
    rename_i t
    by_cases ht : t = u <;> simp [ht]

/-- C3: when the scan succeeds with an array of objects in which the items
whose `userId` is the path parameter (a string) have pairwise distinct
`createdAt` strings, `getProductsByUserId` invokes the callback with error
`null` and the envelope of status 200 whose payload is an array that contains
exactly the scanned items whose `userId` equals that string (an item is in the
payload if and only if it was scanned and its `userId` is the string; each as
often as it was scanned, no other) ordered strictly descending by `createdAt`
in string comparison; when no item matches, the payload is the empty array. -/
theorem getProductsByUserId_sorted (E : Env) (db : Db) (body : Except Thrown JVal)
    (pathParameters res : JVal) (u : JsString) (items : List JVal)
    (hu : getProp pathParameters (js "userId") = .ok (.str u))
    (hdb : db ⟨.scan, .obj [(js "TableName", E.productsTable)]⟩ = .ok res)
    (hres : getProp res (js "Items") = .ok (.arr items))
    (hobj : ∀ it ∈ items, ∃ props, it = .obj props)
    (hstr : ∀ it ∈ items, getProp it (js "userId") = .ok (.str u) →
      ∃ k, getProp it (js "createdAt") = .ok (.str k))
    (hdist : items.Pairwise (fun a b =>
      getProp a (js "userId") = .ok (.str u) → getProp b (js "userId") = .ok (.str u) →
      getProp a (js "createdAt") ≠ getProp b (js "createdAt"))) :
    ∃ sorted : List JVal,
      getProductsByUserId E db ⟨body, pathParameters⟩ =
        ⟨[⟨.scan, .obj [(js "TableName", E.productsTable)]⟩],
         .callback .null
          (.obj [(js "statusCode", .num 200), (js "headers", corsHeaders),
                 (js "body", .str (E.stringify (.arr sorted)))])⟩ ∧
      (∀ it, it ∈ sorted ↔ it ∈ items ∧ getProp it (js "userId") = .ok (.str u)) ∧
      sorted.Perm (items.filter (hasUserId u)) ∧
      (∀ it, hasUserId u it = true ↔ getProp it (js "userId") = .ok (.str u)) ∧
      sorted.Pairwise NewerThan ∧
      ((∀ it ∈ items, getProp it (js "userId") ≠ .ok (.str u)) → sorted = []) := by
  have hfilter : items.filter (ownedBy (.str u)) = items.filter (hasUserId u) :=
    List.filter_congr (fun it _ => ownedBy_str u it)
  have hd : (items.filter (hasUserId u)).Pairwise
      (fun a b => getProp a (js "createdAt") ≠ getProp b (js "createdAt")) := by
    refine List.Pairwise.imp_of_mem ?_ (hdist.sublist (List.filter_sublist items))
    intro a b ha hb h
    exact h ((hasUserId_iff u a).1 (List.mem_filter.1 ha).2)
      ((hasUserId_iff u b).1 (List.mem_filter.1 hb).2)
  obtain ⟨sorted, hsort, hperm, hsorted⟩ := arraySort_sortByDate E (items.filter (hasUserId u))
    (fun a ha => hstr a (List.mem_filter.1 ha).1 ((hasUserId_iff u a).1 (List.mem_filter.1 ha).2))
    hd
  refine ⟨sorted, ?_, ?_, hperm, hasUserId_iff u, hsorted, ?_⟩
  · simp only [getProductsByUserId, hu, hdb, thenCatch, hres, callFilter,
      arrayFilter_userId (.str u) items hobj, hfilter, hsort, response, envelope, jsonStringify]
  · intro it
    rw [hperm.mem_iff, List.mem_filter, hasUserId_iff]
  · intro h
    have hnil : items.filter (hasUserId u) = [] := by
      rw [List.filter_eq_nil_iff]
      intro it hit hh
      exact h it hit ((hasUserId_iff u it).1 hh)
    rw [hnil] at hperm
    exact List.Perm.eq_nil hperm

/-! ## The update-expression builder -/

theorem setProp_of_not_mem : ∀ (l : List (JsString × JVal)) (k : JsString) (v : JVal),
    k ∉ l.map Prod.fst → setProp l k v = l ++ [(k, v)]
  | [], _, _, _ => rfl
  | (k0, v0) :: rest, k, v, h => by
    have hne : k0 ≠ k := fun e => h (by simp [e])
    have hrest : k ∉ rest.map Prod.fst := fun e => h (by simp [e])
    simp [setProp, hne, setProp_of_not_mem rest k v hrest]

theorem foldl_updateStep_expr : ∀ (entries : List (JsString × JVal))
    (acc : JsString × List (JsString × JVal) × List (JsString × JVal)),
    (entries.foldl updateStep acc).1 =
      acc.1 ++ (entries.map (fun kv => assignmentText kv.1 ++ js ",")).flatten
  | [], acc => by simp
  | kv :: rest, acc => by
    simp [List.foldl_cons, foldl_updateStep_expr rest, updateStep, assignmentText,
      List.append_assoc]

theorem foldl_updateStep_names : ∀ (entries : List (JsString × JVal))
    (acc : JsString × List (JsString × JVal) × List (JsString × JVal)),
    (entries.foldl updateStep acc).2.1 =
      entries.foldl (fun l kv => setProp l (js "#" ++ kv.1) (JVal.str kv.1)) acc.2.1
  | [], _ => rfl
  | kv :: rest, acc => by
    simp [List.foldl_cons, foldl_updateStep_names rest, updateStep]

theorem foldl_updateStep_values : ∀ (entries : List (JsString × JVal))
    (acc : JsString × List (JsString × JVal) × List (JsString × JVal)),
    (entries.foldl updateStep acc).2.2 =
      entries.foldl (fun l kv => setProp l (js ":" ++ kv.1) kv.2) acc.2.2
  | [], _ => rfl
  | kv :: rest, acc => by
    simp [List.foldl_cons, foldl_updateStep_values rest, updateStep]

theorem foldl_setProp_fresh (p : JsString) (g : JsString × JVal → JVal) :
    ∀ (entries : List (JsString × JVal)) (l0 : List (JsString × JVal)),
    (entries.map Prod.fst).Nodup →
    (∀ kv ∈ entries, p ++ kv.1 ∉ l0.map Prod.fst) →
    entries.foldl (fun l kv => setProp l (p ++ kv.1) (g kv)) l0 =
      l0 ++ entries.map (fun kv => (p ++ kv.1, g kv))
  | [], l0, _, _ => by simp
  | kv :: rest, l0, hnd, hfresh => by
    have hnd2 : kv.1 ∉ rest.map Prod.fst ∧ (rest.map Prod.fst).Nodup :=
      List.nodup_cons.1 (by simpa using hnd)
    rw [List.foldl_cons, setProp_of_not_mem _ _ _ (hfresh kv (List.mem_cons_self _ _)),
      foldl_setProp_fresh p g rest _ hnd2.2]
    · simp
    · intro kv2 hkv2 hmem
      rw [List.map_append, List.mem_append] at hmem
      rcases hmem with hmem | hmem
      · exact hfresh kv2 (List.mem_cons_of_mem _ hkv2) hmem
      · simp only [List.map_cons, List.map_nil, List.mem_singleton] at hmem
        have hk : kv2.1 = kv.1 := List.append_cancel_left hmem
        exact hnd2.1 (hk ▸ List.mem_map_of_mem Prod.fst hkv2)

theorem dropLast_flatten_comma (sep : Nat) : ∀ (ps : List JsString), ps ≠ [] →
    ((ps.map (fun q => q ++ [sep])).flatten).dropLast = List.intercalate [sep] ps
  | [], h => absurd rfl h
  | [q], _ => by simp [List.intercalate]
  | q :: q2 :: rest, _ => by
    have ih := dropLast_flatten_comma sep (q2 :: rest) (by simp)
    have hne : ((q2 :: rest).map (fun q => q ++ [sep])).flatten ≠ [] := by simp
    rw [List.map_cons, List.flatten_cons, List.dropLast_append_of_ne_nil _ hne, ih]
    simp [List.intercalate, List.intersperse, List.append_assoc]

theorem js_comma : js "," = [44] := by decide

theorem attributesParamsOf_expr (entries : List (JsString × JVal)) (h : entries ≠ []) :
    (attributesParamsOf entries).UpdateExpression =
      js "SET" ++ List.intercalate (js ",") (entries.map (fun kv => assignmentText kv.1)) := by
  have hne : ((entries.map (fun kv => assignmentText kv.1)).map
      (fun q => q ++ [44])).flatten ≠ [] := by
    cases entries with
    | nil => exact absurd rfl h
    | cons kv rest => simp
  simp only [attributesParamsOf, sliceDropLast, foldl_updateStep_expr, js_comma]
  have hmap : entries.map (fun kv => assignmentText kv.1 ++ [44]) =
      (entries.map (fun kv => assignmentText kv.1)).map (fun q => q ++ [44]) := by
    simp [List.map_map]
  rw [hmap, List.dropLast_append_of_ne_nil _ hne, dropLast_flatten_comma 44 _ (by simpa using h)]

theorem attributesParamsOf_names (entries : List (JsString × JVal))
    (hnd : (entries.map Prod.fst).Nodup) :
    (attributesParamsOf entries).ExpressionAttributeNames =
      entries.map (fun kv => (js "#" ++ kv.1, JVal.str kv.1)) := by
  simp only [attributesParamsOf, foldl_updateStep_names]
  rw [foldl_setProp_fresh (js "#") (fun kv => JVal.str kv.1) entries [] hnd (by simp)]
  simp

theorem attributesParamsOf_values (entries : List (JsString × JVal))
    (hnd : (entries.map Prod.fst).Nodup) :
    (attributesParamsOf entries).ExpressionAttributeValues =
      entries.map (fun kv => (js ":" ++ kv.1, kv.2)) := by
  simp only [attributesParamsOf, foldl_updateStep_values]
  rw [foldl_setProp_fresh (js ":") (fun kv => kv.2) entries [] hnd (by simp)]
  simp

theorem lookup_map_prefixed (p : JsString) (g : JsString × JVal → JVal) :
    ∀ (entries : List (JsString × JVal)), (entries.map Prod.fst).Nodup →
    ∀ kv ∈ entries, (entries.map (fun e => (p ++ e.1, g e))).lookup (p ++ kv.1) = some (g kv)
  | [], _, _, h => by simp at h
  | e :: rest, hnd, kv, hkv => by
    have hnd2 : e.1 ∉ rest.map Prod.fst ∧ (rest.map Prod.fst).Nodup :=
      List.nodup_cons.1 (by simpa using hnd)
    rcases List.mem_cons.1 hkv with rfl | hmem
    · simp [List.lookup]
    · have hne : kv.1 ≠ e.1 := fun h => hnd2.1 (h ▸ List.mem_map_of_mem Prod.fst hmem)
      have hne2 : (p ++ kv.1 == p ++ e.1) = false := by simpa using hne
      simp only [List.map_cons, List.lookup, hne2]
      exact lookup_map_prefixed p g rest hnd2.2 kv hmem

/-- C4: for a non-empty mapping whose entries, in enumeration order, have the
(distinct) keys k1..kn, `generateUpdateQuery` returns the update expression
"SET" followed by the pieces " #ki = :ki" joined by "," (no comma after the
last piece), the name map whose entries are exactly "#ki" to ki and the value
map whose entries are exactly ":ki" to the value supplied for ki, all three in
the order of the entries; so the placeholder and the token of every key of the
body resolve to that key and to its supplied value, and no other key occurs. -/
theorem generateUpdateQuery_spec (entries : List (JsString × JVal)) (hne : entries ≠ [])
    (hnd : (entries.map Prod.fst).Nodup) :
    generateUpdateQuery (.obj entries) = .ok
      ⟨js "SET" ++ List.intercalate (js ",")
          (entries.map (fun kv => js " #" ++ kv.1 ++ js " = :" ++ kv.1)),
       entries.map (fun kv => (js "#" ++ kv.1, JVal.str kv.1)),
       entries.map (fun kv => (js ":" ++ kv.1, kv.2))⟩ ∧
    (∀ kv ∈ entries,
      (entries.map (fun kv => (js "#" ++ kv.1, JVal.str kv.1))).lookup (js "#" ++ kv.1) =
        some (JVal.str kv.1) ∧
      (entries.map (fun kv => (js ":" ++ kv.1, kv.2))).lookup (js ":" ++ kv.1) = some kv.2) := by
  constructor
  · have h1 := attributesParamsOf_expr entries hne
    have h2 := attributesParamsOf_names entries hnd
    have h3 := attributesParamsOf_values entries hnd
    have h1b : (attributesParamsOf entries).UpdateExpression =
        js "SET" ++ List.intercalate (js ",")
          (entries.map (fun kv => js " #" ++ kv.1 ++ js " = :" ++ kv.1)) := h1
    simp only [generateUpdateQuery, objectEntries, ownEntries]
    rw [← h1b, ← h2, ← h3]
  · intro kv hkv
    exact ⟨lookup_map_prefixed (js "#") (fun e => JVal.str e.1) entries hnd kv hkv,
      lookup_map_prefixed (js ":") (fun e => e.2) entries hnd kv hkv⟩

/-- C10: for the empty mapping (body `\x7b\x7d`), `generateUpdateQuery` returns the
update expression "SE", of two code units, with empty name and value maps;
and for every mapping the update expression starts with "SET" exactly when
the mapping is non-empty. -/
theorem generateUpdateQuery_empty :
    generateUpdateQuery (.obj []) = .ok ⟨js "SE", [], []⟩ ∧
    (js "SE").length = 2 ∧
    ∀ entries : List (JsString × JVal),
      ∃ q, generateUpdateQuery (.obj entries) = .ok q ∧
        (js "SET" <+: q.UpdateExpression ↔ entries ≠ []) := by
  refine ⟨rfl, by decide, ?_⟩
  intro entries
  refine ⟨attributesParamsOf entries, rfl, ?_⟩
  constructor
  · rintro h rfl
    revert h
    decide
  · intro h
    rw [attributesParamsOf_expr entries h]
    exact List.prefix_append _ _

/-! ## Handlers over the document store -/

theorem Store.find_filter_ne (s : Store) (k k2 : JsString) (h : k2 ≠ k) :
    Store.find (List.filter (fun it => itemKey it != some k) s) k2 = Store.find s k2 := by
  induction s with
  | nil => rfl
  | cons it rest ih =>
    simp only [Store.find] at ih ⊢
    by_cases hk : itemKey it = some k
    · have hk2 : (itemKey it == some k2) = false := by
        rw [hk]; simpa using fun e => h e.symm
      have hk1 : (itemKey it != some k) = false := by simp [hk]
      simp only [List.filter, hk1, List.find?, hk2, ih]
    · have hk1 : (itemKey it != some k) = true := by simpa using hk
      simp only [List.filter, hk1, List.find?]
      cases itemKey it == some k2 <;> simp [ih]

theorem Store.find_filter_self (s : Store) (k : JsString) :
    Store.find (List.filter (fun it => itemKey it != some k) s) k = none := by
  simp only [Store.find, List.find?_eq_none, List.mem_filter]
  rintro it ⟨_, hne⟩
  simpa using hne

theorem Store.filter_eq_of_find_none (s : Store) (k : JsString) (h : Store.find s k = none) :
    List.filter (fun it => itemKey it != some k) s = s := by
  simp only [Store.find, List.find?_eq_none] at h
  rw [List.filter_eq_self]
  intro it hit
  simpa using h it hit

theorem exec_delete (E : Env) (L : Limits) (s : Store) (id : JsString) :
    Store.exec L s ⟨.delete, .obj [(js "TableName", E.productsTable),
        (js "Key", .obj [(js "id", .str id)])]⟩ =
      (.ok (.obj []), List.filter (fun it => itemKey it != some id) s) := rfl

/-- C9: over the document store, for every string id and every table,
`deleteProduct` issues exactly one request, a `delete` whose parameters are
only the table name and the key (no condition), and invokes the callback with
error `null` and the envelope of status 200 whose body is the serialisation of
the fixed message, whether or not an item with that id existed.  The table
afterwards is the old table without the items of that id: no such item is
left, every other key is found as before, and a table that had no such item is
unchanged.  Deleting a second time gives the same response and leaves the
table as the first deletion left it. -/
theorem deleteProduct_idempotent (E : Env) (L : Limits) (s : Store) (body : Except Thrown JVal)
    (pathParameters : JVal) (id : JsString)
    (hid : getProp pathParameters (js "id") = .ok (.str id)) :
    (deleteProduct E (Store.db L s) ⟨body, pathParameters⟩).calls =
      [⟨.delete, .obj [(js "TableName", E.productsTable),
        (js "Key", .obj [(js "id", .str id)])]⟩] ∧
    (deleteProduct E (Store.db L s) ⟨body, pathParameters⟩).outcome =
      .callback .null
        (.obj [(js "statusCode", .num 200), (js "headers", corsHeaders),
               (js "body", .str (E.stringify (.obj [(js "message",
                  .str (js "Product has been deleted successfully!"))])))]) ∧
    Store.after L s (deleteProduct E (Store.db L s) ⟨body, pathParameters⟩).calls =
      List.filter (fun it => itemKey it != some id) s ∧
    Store.find (Store.after L s (deleteProduct E (Store.db L s) ⟨body, pathParameters⟩).calls) id
      = none ∧
    (∀ k, k ≠ id →
      Store.find (Store.after L s (deleteProduct E (Store.db L s) ⟨body, pathParameters⟩).calls) k
        = Store.find s k) ∧
    (Store.find s id = none →
      Store.after L s (deleteProduct E (Store.db L s) ⟨body, pathParameters⟩).calls = s) ∧
    (deleteProduct E
        (Store.db L (Store.after L s (deleteProduct E (Store.db L s) ⟨body, pathParameters⟩).calls))
        ⟨body, pathParameters⟩).outcome =
      (deleteProduct E (Store.db L s) ⟨body, pathParameters⟩).outcome ∧
    Store.after L (Store.after L s (deleteProduct E (Store.db L s) ⟨body, pathParameters⟩).calls)
      (deleteProduct E
        (Store.db L (Store.after L s (deleteProduct E (Store.db L s) ⟨body, pathParameters⟩).calls))
        ⟨body, pathParameters⟩).calls =
      Store.after L s (deleteProduct E (Store.db L s) ⟨body, pathParameters⟩).calls := by
  have hrun : ∀ t : Store, deleteProduct E (Store.db L t) ⟨body, pathParameters⟩ =
      ⟨[⟨.delete, .obj [(js "TableName", E.productsTable),
          (js "Key", .obj [(js "id", .str id)])]⟩],
       .callback .null (response E (.num 200) deletedMessage)⟩ := by
    intro t
    simp only [deleteProduct, hid, Store.db, exec_delete, thenCatch]
  have hafter : ∀ t : Store, Store.after L t
      [⟨.delete, .obj [(js "TableName", E.productsTable),
          (js "Key", .obj [(js "id", .str id)])]⟩] =
      List.filter (fun it => itemKey it != some id) t := by
    intro t
    simp only [Store.after, List.foldl, exec_delete]
  simp only [hrun, hafter]
  refine ⟨trivial, rfl, trivial, Store.find_filter_self s id, ?_, ?_, ?_⟩
  · exact fun k hk => Store.find_filter_ne s id k hk
  · exact Store.filter_eq_of_find_none s id
  · exact ⟨trivial, Store.filter_eq_of_find_none _ id (Store.find_filter_self s id)⟩

theorem exec_put_product (E : Env) (L : Limits) (s : Store) (userId : JVal)
    (name imageUrl description price : JsString) :
    Store.exec L s ⟨.put, .obj [(js "TableName", E.productsTable),
        (js "Item", productOf E userId name imageUrl description price)]⟩ =
      (.ok (.obj []), productOf E userId name imageUrl description price ::
        List.filter (fun it => itemKey it != some E.uuidv4) s) := rfl

theorem itemKey_productOf (E : Env) (userId : JVal) (name imageUrl description price : JsString) :
    itemKey (productOf E userId name imageUrl description price) = some E.uuidv4 := rfl

theorem truthy_productOf (E : Env) (userId : JVal) (name imageUrl description price : JsString) :
    truthy (productOf E userId name imageUrl description price) = true := rfl

theorem jsonStringify_productOf (E : Env) (userId : JVal)
    (name imageUrl description price : JsString) :
    jsonStringify E (productOf E userId name imageUrl description price) =
      .str (E.stringify (productOf E userId name imageUrl description price)) := rfl

theorem requestKey_get (t : JVal) (id : JsString) :
    requestKey (.obj [(js "TableName", t), (js "Key", .obj [(js "id", .str id)])]) = some id :=
  rfl

theorem exec_get_some (L : Limits) (t : JVal) (s : Store) (id : JsString) (it : JVal)
    (h : Store.find s id = some it) :
    Store.exec L s ⟨.get, .obj [(js "TableName", t), (js "Key", .obj [(js "id", .str id)])]⟩ =
      (.ok (.obj [(js "Item", it)]), s) := by
  simp only [Store.exec, requestKey_get, h]

theorem exec_get_none (L : Limits) (t : JVal) (s : Store) (id : JsString) (h : Store.find s id = none) :
    Store.exec L s ⟨.get, .obj [(js "TableName", t), (js "Key", .obj [(js "id", .str id)])]⟩ =
      (.ok (.obj []), s) := by
  simp only [Store.exec, requestKey_get, h]

/-- C8: over the document store, for every valid creation input (a string
`userId` and four non-blank strings) and every table, `createProduct` returns
status 201 with the created product, and `getProduct` called afterwards with
the id of that product returns status 200 with a payload equal to that same
product. -/
theorem create_then_get_roundtrip (E : Env) (L : Limits) (s : Store) (pathParameters reqBody : JVal)
    (userId name imageUrl description price : JsString)
    (body2 : Except Thrown JVal) (pathParameters2 : JVal)
    (hu : getProp pathParameters (js "userId") = .ok (.str userId))
    (hn : getProp reqBody (js "name") = .ok (.str name)) (hn0 : trim name ≠ [])
    (hi : getProp reqBody (js "imageUrl") = .ok (.str imageUrl)) (hi0 : trim imageUrl ≠ [])
    (hd : getProp reqBody (js "description") = .ok (.str description))
    (hd0 : trim description ≠ [])
    (hp : getProp reqBody (js "price") = .ok (.str price)) (hp0 : trim price ≠ [])
    (hid : getProp pathParameters2 (js "id") = .ok (.str E.uuidv4)) :
    (createProduct E (Store.db L s) ⟨.ok reqBody, pathParameters⟩).outcome =
      .callback .null
        (.obj [(js "statusCode", .num 201), (js "headers", corsHeaders),
               (js "body", .str (E.stringify
                  (productOf E (.str userId) name imageUrl description price)))]) ∧
    Store.find (Store.after L s (createProduct E (Store.db L s) ⟨.ok reqBody, pathParameters⟩).calls)
        E.uuidv4 = some (productOf E (.str userId) name imageUrl description price) ∧
    (getProduct E
        (Store.db L (Store.after L s
          (createProduct E (Store.db L s) ⟨.ok reqBody, pathParameters⟩).calls))
        ⟨body2, pathParameters2⟩).outcome =
      .callback .null
        (.obj [(js "statusCode", .num 200), (js "headers", corsHeaders),
               (js "body", .str (E.stringify
                  (productOf E (.str userId) name imageUrl description price)))]) := by
  rw [createProduct_run_of_valid E (Store.db L s) pathParameters (.str userId) reqBody name imageUrl
    description price hu hn hn0 hi hi0 hd hd0 hp hp0]
  have hfind : Store.find (productOf E (.str userId) name imageUrl description price ::
      List.filter (fun it => itemKey it != some E.uuidv4) s) E.uuidv4 =
      some (productOf E (.str userId) name imageUrl description price) := by
    simp [Store.find, List.find?, itemKey_productOf]
  refine ⟨?_, ?_, ?_⟩
  · simp only [Store.db, exec_put_product, thenCatch, response, envelope,
      jsonStringify_productOf]
  · simpa only [Store.after, List.foldl, exec_put_product] using hfind
  · have hafter : Store.after L s [⟨.put, .obj [(js "TableName", E.productsTable),
        (js "Item", productOf E (.str userId) name imageUrl description price)]⟩] =
        productOf E (.str userId) name imageUrl description price ::
          List.filter (fun it => itemKey it != some E.uuidv4) s := by
      simp only [Store.after, List.foldl, exec_put_product]
    have hitem : getProp (.obj [(js "Item", productOf E (.str userId) name imageUrl description price)])
        (js "Item") = .ok (productOf E (.str userId) name imageUrl description price) := rfl
    simp only [hafter, getProduct, hid, Store.db, exec_get_some _ _ _ _ _ hfind, thenCatch, hitem,
      truthy_productOf, if_true, response, envelope, jsonStringify_productOf]

/-! ## The update expression as read by the store -/

theorem allSome_map {α β : Type} (f : α → Option β) (g : α → β) :
    ∀ l : List α, (∀ x ∈ l, f x = some (g x)) → allSome (l.map f) = some (l.map g)
  | [], _ => rfl
  | x :: rest, h => by
    have ih := allSome_map f g rest (fun y hy => h y (List.mem_cons_of_mem _ hy))
    simp only [List.map_cons, h x (List.mem_cons_self _ _), allSome, ih]

theorem js_assign_open : js " #" = [32, 35] := by decide

theorem js_assign_mid : js " = :" = [32, 61, 32, 58] := by decide

theorem js_SET : js "SET" = [83, 69, 84] := by decide

theorem assignmentText_eq (k : JsString) :
    assignmentText k = 32 :: 35 :: (k ++ 32 :: 61 :: 32 :: 58 :: k) := by
  simp [assignmentText, js_assign_open, js_assign_mid]

theorem parseAction_assignmentText (k : JsString) (hne : k ≠ [])
    (hid : ∀ u ∈ k, isIdentUnit u = true) :
    parseAction (assignmentText k) = some (35 :: k, 58 :: k) := by
  have h32 : isIdentUnit 32 = false := by decide
  have ht1 : (k ++ 32 :: 61 :: 32 :: 58 :: k).takeWhile isIdentUnit = k := by
    rw [List.takeWhile_append_of_pos hid]
    simp [List.takeWhile, h32]
  have hd1 : (k ++ 32 :: 61 :: 32 :: 58 :: k).dropWhile isIdentUnit = 32 :: 61 :: 32 :: 58 :: k := by
    rw [List.dropWhile_append_of_pos hid]
    simp [List.dropWhile, h32]
  have ht2 : k.takeWhile isIdentUnit = k := List.takeWhile_eq_self_iff.2 hid
  have hd2 : k.dropWhile isIdentUnit = [] := List.dropWhile_eq_nil_iff.2 hid
  have hb1 : (32 :: 35 :: (k ++ 32 :: 61 :: 32 :: 58 :: k)).dropWhile isBlank =
      35 :: (k ++ 32 :: 61 :: 32 :: 58 :: k) := by
    simp [List.dropWhile, isBlank]
  have hb2 : (32 :: 61 :: 32 :: 58 :: k).dropWhile isBlank = 61 :: 32 :: 58 :: k := by
    simp [List.dropWhile, isBlank]
  have hb3 : (32 :: 58 :: k).dropWhile isBlank = 58 :: k := by
    simp [List.dropWhile, isBlank]
  rw [assignmentText_eq, parseAction, hb1]
  simp only [ne_eq, not_true_eq_false, if_false, hd1, hb2, hb3, ht1, ht2, hd2, hne,
    List.dropWhile_nil]

theorem comma_not_mem_assignmentText (k : JsString) (hid : ∀ u ∈ k, isIdentUnit u = true) :
    44 ∉ assignmentText k := by
  have h44 : isIdentUnit 44 = false := by decide
  have hk : 44 ∉ k := fun h => by rw [hid 44 h] at h44; cases h44
  rw [assignmentText_eq]
  simp [hk]

theorem parseUpdateExpression_generated (keys : List JsString) (hne : keys ≠ [])
    (hk : ∀ k ∈ keys, k ≠ [] ∧ ∀ u ∈ k, isIdentUnit u = true) :
    parseUpdateExpression (js "SET" ++ List.intercalate (js ",") (keys.map assignmentText)) =
      some (keys.map (fun k => (35 :: k, 58 :: k))) := by
  have htake : (js "SET" ++ List.intercalate (js ",") (keys.map assignmentText)).take 3 =
      js "SET" := List.take_left' (by decide)
  have hdrop : (js "SET" ++ List.intercalate (js ",") (keys.map assignmentText)).drop 3 =
      List.intercalate (js ",") (keys.map assignmentText) := List.drop_left' (by decide)
  have hsplit : (List.intercalate [44] (keys.map assignmentText)).splitOn 44 =
      keys.map assignmentText := by
    apply List.splitOn_intercalate
    · intro l hl
      obtain ⟨k, hkm, rfl⟩ := List.mem_map.1 hl
      exact comma_not_mem_assignmentText k (hk k hkm).2
    · simpa using hne
  rw [parseUpdateExpression, htake, hdrop, js_comma, hsplit]
  simp only [if_true, List.map_map]
  exact allSome_map _ _ keys (fun k hkm => parseAction_assignmentText k (hk k hkm).1 (hk k hkm).2)

theorem lookup_setProp_self : ∀ (l : List (JsString × JVal)) (k : JsString) (v : JVal),
    (setProp l k v).lookup k = some v
  | [], k, v => by simp [setProp, List.lookup]
  | (k0, v0) :: rest, k, v => by
    by_cases h0 : k0 = k
    · simp [setProp, h0, List.lookup]
    · have hb : (k == k0) = false := by simpa using fun e => h0 e.symm
      simp only [setProp, h0, if_false, List.lookup, hb]
      exact lookup_setProp_self rest k v

theorem lookup_setProp_ne : ∀ (l : List (JsString × JVal)) (k k2 : JsString) (v : JVal),
    k2 ≠ k → (setProp l k v).lookup k2 = l.lookup k2
  | [], k, k2, v, h => by
    have hb : (k2 == k) = false := by simpa using h
    simp [setProp, List.lookup, hb]
  | (k0, v0) :: rest, k, k2, v, h => by
    by_cases h0 : k0 = k
    · subst h0
      have hb : (k2 == k0) = false := by simpa using h
      simp [setProp, List.lookup, hb]
    · simp only [setProp, h0, if_false, List.lookup]
      cases (k2 == k0)
      · exact lookup_setProp_ne rest k k2 v h
      · rfl

theorem lookup_applySets_of_not_mem : ∀ (sets props : List (JsString × JVal)) (k : JsString),
    k ∉ sets.map Prod.fst → (applySets props sets).lookup k = props.lookup k
  | [], _, _, _ => rfl
  | kv :: rest, props, k, h => by
    have h1 : k ≠ kv.1 := fun e => h (by simp [e])
    have h2 : k ∉ rest.map Prod.fst := fun e => h (by simp [e])
    have ih := lookup_applySets_of_not_mem rest (setProp props kv.1 kv.2) k h2
    simp only [applySets, List.foldl_cons] at ih ⊢
    rw [ih, lookup_setProp_ne props kv.1 k kv.2 h1]

theorem lookup_applySets_of_mem : ∀ (sets props : List (JsString × JVal)),
    (sets.map Prod.fst).Nodup → ∀ kv ∈ sets, (applySets props sets).lookup kv.1 = some kv.2
  | [], _, _, _, h => by simp at h
  | e :: rest, props, hnd, kv, hkv => by
    have hnd2 : e.1 ∉ rest.map Prod.fst ∧ (rest.map Prod.fst).Nodup :=
      List.nodup_cons.1 (by simpa using hnd)
    rcases List.mem_cons.1 hkv with rfl | hmem
    · have h := lookup_applySets_of_not_mem rest (setProp props kv.1 kv.2) kv.1 hnd2.1
      simp only [applySets, List.foldl_cons] at h ⊢
      rw [h, lookup_setProp_self]
    · have ih := lookup_applySets_of_mem rest (setProp props e.1 e.2) hnd2.2 kv hmem
      simpa only [applySets, List.foldl_cons] using ih

theorem resolveActions_generated (entries : List (JsString × JVal))
    (hnd : (entries.map Prod.fst).Nodup) :
    resolveActions (.obj (entries.map (fun kv => (js "#" ++ kv.1, JVal.str kv.1))))
        (.obj (entries.map (fun kv => (js ":" ++ kv.1, kv.2))))
        ((entries.map Prod.fst).map (fun k => (35 :: k, 58 :: k))) = some entries := by
  have h := allSome_map (fun kv : JsString × JVal =>
      match (entries.map (fun kv => (js "#" ++ kv.1, JVal.str kv.1))).lookup (35 :: kv.1),
        (entries.map (fun kv => (js ":" ++ kv.1, kv.2))).lookup (58 :: kv.1) with
      | some (.str attr), some v => some (attr, v)
      | _, _ => none) id entries (by
    intro kv hkv
    have h1 := lookup_map_prefixed (js "#") (fun e => JVal.str e.1) entries hnd kv hkv
    have h2 := lookup_map_prefixed (js ":") (fun e => e.2) entries hnd kv hkv
    have e1 : js "#" ++ kv.1 = 35 :: kv.1 := rfl
    have e2 : js ":" ++ kv.1 = 58 :: kv.1 := rfl
    rw [e1] at h1
    rw [e2] at h2
    simp only [h1, h2, id])
  simpa [resolveActions, ownEntries, List.map_map, Function.comp_def] using h

theorem updateParams_key (E : Env) (id : JsString) (q : UpdateQuery) :
    requestKey (updateParams E (.str id) q) = some id := rfl

theorem updateParams_expr (E : Env) (id : JVal) (q : UpdateQuery) :
    propD (updateParams E id q) (js "UpdateExpression") = .str q.UpdateExpression := rfl

theorem updateParams_names (E : Env) (id : JVal) (q : UpdateQuery) :
    propD (updateParams E id q) (js "ExpressionAttributeNames") =
      .obj q.ExpressionAttributeNames := rfl

theorem updateParams_values (E : Env) (id : JVal) (q : UpdateQuery) :
    propD (updateParams E id q) (js "ExpressionAttributeValues") =
      .obj q.ExpressionAttributeValues := rfl

theorem updateParams_condition (E : Env) (id : JVal) (q : UpdateQuery) :
    propD (updateParams E id q) (js "ConditionExpression") =
      .str (js "attribute_exists(id)") := rfl

theorem updateParams_result (E : Env) (id : JVal) (q : UpdateQuery)
    (sets : List (JsString × JVal)) :
    updateResult (updateParams E id q) sets = .obj [(js "Attributes", .obj sets)] := rfl

theorem Store.update_generated (E : Env) (L : Limits) (s : Store) (id : JsString)
    (entries : List (JsString × JVal)) (hne : entries ≠ [])
    (hnd : (entries.map Prod.fst).Nodup)
    (hkeys : ∀ k ∈ entries.map Prod.fst, UpdatableField k)
    (hval : L.admitsValues entries = true) :
    Store.update L s (updateParams E (.str id) (attributesParamsOf entries)) =
      match Store.find s id with
      | some it =>
        if L.admitsItem (applySets (ownEntries it) entries) = false then
          (.error validationException, s)
        else
          (.ok (.obj [(js "Attributes", .obj entries)]),
           List.map (fun x => if itemKey x == some id
             then .obj (applySets (ownEntries it) entries) else x) s)
      | none => (.error conditionalCheckFailed, s) := by
  have hparse : parseUpdateExpression (attributesParamsOf entries).UpdateExpression =
      some ((entries.map Prod.fst).map (fun k => (35 :: k, 58 :: k))) := by
    rw [attributesParamsOf_expr entries hne]
    have := parseUpdateExpression_generated (entries.map Prod.fst) (by simpa using hne)
      (fun k hk => ⟨(hkeys k hk).1, (hkeys k hk).2.1⟩)
    simpa [List.map_map, Function.comp_def] using this
  have hres := resolveActions_generated entries hnd
  rw [← attributesParamsOf_names entries hnd, ← attributesParamsOf_values entries hnd] at hres
  have hidkey : ¬ (js "id" ∈ entries.map Prod.fst ∨ ¬ (entries.map Prod.fst).Nodup) := by
    rintro (h | h)
    · exact (hkeys _ h).2.2 rfl
    · exact h hnd
  simp only [Store.update, updateParams_key, updateParams_expr, updateParams_names,
    updateParams_values, updateParams_condition, updateParams_result, hparse, hres, hidkey,
    if_false, hval, Bool.true_eq_false]
  cases Store.find s id <;> simp

theorem Store.find_map_update (newItem : JVal) (id : JsString)
    (hkey : itemKey newItem = some id) (k2 : JsString) :
    ∀ s : Store,
      Store.find (List.map (fun x => if itemKey x == some id then newItem else x) s) k2 =
        if k2 = id then (Store.find s id).map (fun _ => newItem) else Store.find s k2
  | [] => by simp [Store.find]
  | x :: rest => by
    have ih := Store.find_map_update newItem id hkey k2 rest
    simp only [Store.find] at ih ⊢
    by_cases hx : itemKey x = some id
    · by_cases hk : k2 = id
      · subst hk
        simp [List.find?, hx, hkey]
      · have hb : (some id == some k2) = false := by simpa using fun e => hk e.symm
        simp only [List.map_cons, hx, beq_self_eq_true, if_true, List.find?, hkey, hb, ih, hk,
          if_false]
    · have hb : (itemKey x == some id) = false := by simpa using hx
      simp only [List.map_cons, hb, Bool.false_eq_true, if_false, List.find?, ih]
      by_cases hk : k2 = id
      · subst hk
        simp only [hb, if_true]
      · simp only [hk, if_false]

theorem itemKey_applySets (props entries : List (JsString × JVal)) (id : JsString)
    (h : itemKey (.obj props) = some id) (hid : js "id" ∉ entries.map Prod.fst) :
    itemKey (.obj (applySets props entries)) = some id := by
  simp only [itemKey, getProp_obj] at h ⊢
  rw [lookup_applySets_of_not_mem entries props (js "id") hid]
  exact h

theorem itemKey_of_find {s : Store} {id : JsString} {it : JVal} (h : Store.find s id = some it) :
    itemKey it = some id := by
  have := List.find?_some h
  simpa using this

/-- C5 (as amended): over the document store, for every string id and every
non-empty body whose keys are distinct, are non-empty words of ASCII letters,
digits and underscore, and do not include the key attribute `id`, and whose
names and values the store admits (its limits on names, number range and
value sizes): when the table holds an item with that id and the store admits
the updated item (its limit on item size), `updateProduct` returns status 200
whose payload is exactly the body's fields with their new values, and
afterwards the item of that id is the old item with the body's fields set
(every field of the body has its new value, every other field is as before)
and every other key is found as before; when the table holds no item with
that id, it returns the store's conditional-check error with its status 400
and the table is unchanged, so no item is created. -/
theorem updateProduct_merges (E : Env) (L : Limits) (s : Store) (pathParameters reqBody : JVal)
    (id : JsString) (entries : List (JsString × JVal))
    (hid : getProp pathParameters (js "id") = .ok (.str id))
    (hbody : objectEntries reqBody = .ok entries)
    (hne : entries ≠ [])
    (hnd : (entries.map Prod.fst).Nodup)
    (hkeys : ∀ k ∈ entries.map Prod.fst, UpdatableField k)
    (hval : L.admitsValues entries = true) :
    (∀ props, Store.find s id = some (.obj props) →
      L.admitsItem (applySets props entries) = true →
      (updateProduct E (Store.db L s) ⟨.ok reqBody, pathParameters⟩).outcome =
        .callback .null
          (.obj [(js "statusCode", .num 200), (js "headers", corsHeaders),
                 (js "body", .str (E.stringify (.obj entries)))]) ∧
      Store.find
        (Store.after L s
          (updateProduct E (Store.db L s) ⟨.ok reqBody, pathParameters⟩).calls) id =
        some (.obj (applySets props entries)) ∧
      (∀ kv ∈ entries, (applySets props entries).lookup kv.1 = some kv.2) ∧
      (∀ f, f ∉ entries.map Prod.fst → (applySets props entries).lookup f = props.lookup f) ∧
      (∀ k2, k2 ≠ id →
        Store.find
          (Store.after L s
            (updateProduct E (Store.db L s) ⟨.ok reqBody, pathParameters⟩).calls) k2 =
          Store.find s k2)) ∧
    (Store.find s id = none →
      (updateProduct E (Store.db L s) ⟨.ok reqBody, pathParameters⟩).outcome =
        .callback .null
          (.obj [(js "statusCode", .num 400), (js "headers", corsHeaders),
                 (js "body", .str (E.stringify (.obj conditionalCheckFailed)))]) ∧
      Store.after L s (updateProduct E (Store.db L s) ⟨.ok reqBody, pathParameters⟩).calls = s ∧
      Store.find
        (Store.after L s
          (updateProduct E (Store.db L s) ⟨.ok reqBody, pathParameters⟩).calls) id =
        none) := by
  have hexec : Store.exec L s ⟨.update, updateParams E (.str id) (attributesParamsOf entries)⟩ =
      Store.update L s (updateParams E (.str id) (attributesParamsOf entries)) := rfl
  have hupd := Store.update_generated E L s id entries hne hnd hkeys hval
  have hidkey : js "id" ∉ entries.map Prod.fst := fun h => (hkeys _ h).2.2 rfl
  constructor
  · intro props hfind hitemok
    rw [hfind] at hupd
    simp only [ownEntries, hitemok, Bool.true_eq_false, if_false] at hupd
    have hkey : itemKey (.obj (applySets props entries)) = some id :=
      itemKey_applySets props entries id (itemKey_of_find hfind) hidkey
    have hattrs : getProp (.obj [(js "Attributes", .obj entries)]) (js "Attributes") =
        .ok (.obj entries) := rfl
    have hafter : Store.after L s
        (updateProduct E (Store.db L s) ⟨.ok reqBody, pathParameters⟩).calls =
        List.map (fun x => if itemKey x == some id
          then .obj (applySets props entries) else x) s := by
      simp only [updateProduct, hid, generateUpdateQuery, hbody, Store.after, List.foldl, hexec,
        hupd]
    refine ⟨?_, ?_, ?_, ?_, ?_⟩
    · simp only [updateProduct, hid, generateUpdateQuery, hbody, Store.db, hexec, hupd,
        thenCatch, hattrs, response, envelope, jsonStringify]
    · rw [hafter, Store.find_map_update _ id hkey id s, hfind]
      simp
    · exact lookup_applySets_of_mem entries props hnd
    · exact fun f hf => lookup_applySets_of_not_mem entries props f hf
    · intro k2 hk2
      rw [hafter, Store.find_map_update _ id hkey k2 s]
      simp [hk2]
  · intro hfind
    rw [hfind] at hupd
    have hstatus : getProp (.obj conditionalCheckFailed) (js "statusCode") = .ok (.num 400) := rfl
    have hafter : Store.after L s
        (updateProduct E (Store.db L s) ⟨.ok reqBody, pathParameters⟩).calls = s := by
      simp only [updateProduct, hid, generateUpdateQuery, hbody, Store.after, List.foldl, hexec,
        hupd]
    refine ⟨?_, hafter, ?_⟩
    · simp only [updateProduct, hid, generateUpdateQuery, hbody, Store.db, hexec, hupd,
        thenCatch, onRejected, hstatus, response, envelope, jsonStringify]
    · rw [hafter, hfind]

/-- C5 (counterexample): the table holds an item with id "p1", yet for the
non-empty body with the single key "unit price", for the non-empty body with
the single key "id", and for the non-empty body whose field `qty` is the
number 10^200, `updateProduct` returns the store's validation error with
status 400 and leaves the table unchanged: the item is not merged and the
status is not 200. -/
theorem updateProduct_rejected_bodies :
    Store.find sampleStore (js "p1") = some sampleProduct ∧
    (updateProduct sampleEnv (Store.db sampleLimits sampleStore)
        ⟨.ok (.obj [(js "unit price", .str (js "19.99"))]), samplePath⟩).outcome =
      .callback .null
        (.obj [(js "statusCode", .num 400), (js "headers", corsHeaders),
               (js "body", .str (sampleEnv.stringify (.obj validationException)))]) ∧
    Store.after sampleLimits sampleStore (updateProduct sampleEnv (Store.db sampleLimits sampleStore)
        ⟨.ok (.obj [(js "unit price", .str (js "19.99"))]), samplePath⟩).calls = sampleStore ∧
    (updateProduct sampleEnv (Store.db sampleLimits sampleStore)
        ⟨.ok (.obj [(js "id", .str (js "p2"))]), samplePath⟩).outcome =
      .callback .null
        (.obj [(js "statusCode", .num 400), (js "headers", corsHeaders),
               (js "body", .str (sampleEnv.stringify (.obj validationException)))]) ∧
    Store.after sampleLimits sampleStore (updateProduct sampleEnv (Store.db sampleLimits sampleStore)
        ⟨.ok (.obj [(js "id", .str (js "p2"))]), samplePath⟩).calls = sampleStore ∧
    (updateProduct sampleEnv (Store.db sampleLimits sampleStore)
        ⟨.ok (.obj [(js "qty", .num ((10 ^ 200 : Nat) : ℚ))]), samplePath⟩).outcome =
      .callback .null
        (.obj [(js "statusCode", .num 400), (js "headers", corsHeaders),
               (js "body", .str (sampleEnv.stringify (.obj validationException)))]) ∧
    Store.after sampleLimits sampleStore (updateProduct sampleEnv (Store.db sampleLimits sampleStore)
        ⟨.ok (.obj [(js "qty", .num ((10 ^ 200 : Nat) : ℚ))]), samplePath⟩).calls = sampleStore :=
  ⟨rfl, rfl, rfl, rfl, rfl, rfl, rfl⟩

/-! ## Completion of the handlers -/

theorem getProp_error {v : JVal} {k : JsString} {e : Thrown} (h : getProp v k = .error e) :
    e = .typeError := by
  cases v with
  | undefined => simp only [getProp] at h; cases h; rfl
  | null => simp only [getProp] at h; cases h; rfl
  | bool b => simp [getProp] at h
  | num q => simp [getProp] at h
  | str s => simp only [getProp] at h; split at h <;> cases h
  | arr xs => simp only [getProp] at h; split at h <;> cases h
  | obj props => simp [getProp] at h

theorem arrayFilter_error (p : JVal → Except Thrown Bool)
    (hp : ∀ x e, p x = .error e → e = .typeError) :
    ∀ (xs : List JVal) (e : Thrown), arrayFilter p xs = .error e → e = .typeError
  | [], e, h => by simp [arrayFilter] at h
  | x :: rest, e, h => by
    simp only [arrayFilter] at h
    cases hx : p x with
    | error e1 =>
      rw [hx] at h
      cases h
      exact hp x _ hx
    | ok b =>
      rw [hx] at h
      cases hr : arrayFilter p rest with
      | error e2 =>
        rw [hr] at h
        cases h
        exact arrayFilter_error p hp rest _ hr
      | ok r =>
        rw [hr] at h
        cases h

theorem sortByDate_error (E : Env) {a b : JVal} {e : Thrown}
    (h : sortByDate E a b = .error e) : e = .typeError := by
  simp only [sortByDate] at h
  cases ha : getProp a (js "createdAt") with
  | error e1 =>
    rw [ha] at h
    cases h
    exact getProp_error ha
  | ok x =>
    rw [ha] at h
    cases hb : getProp b (js "createdAt") with
    | error e2 =>
      rw [hb] at h
      cases h
      exact getProp_error hb
    | ok y =>
      rw [hb] at h
      cases h

theorem insertBy_error (E : Env) (x : JVal) :
    ∀ (r : List JVal) (e : Thrown), insertBy (sortByDate E) x r = .error e → e = .typeError
  | [], e, h => by simp [insertBy] at h
  | y :: ys, e, h => by
    simp only [insertBy] at h
    cases hc : sortByDate E x y with
    | error e1 =>
      rw [hc] at h
      cases h
      exact sortByDate_error E hc
    | ok c =>
      rw [hc] at h
      by_cases hneg : c < 0
      · simp [hneg] at h
      · simp only [hneg, if_false] at h
        cases hr : insertBy (sortByDate E) x ys with
        | error e2 =>
          rw [hr] at h
          cases h
          exact insertBy_error E x ys _ hr
        | ok r =>
          rw [hr] at h
          cases h

theorem sortInto_error (E : Env) :
    ∀ (xs acc : List JVal) (e : Thrown),
      sortInto (sortByDate E) acc xs = .error e → e = .typeError
  | [], acc, e, h => by simp [sortInto] at h
  | x :: xs, acc, e, h => by
    simp only [sortInto] at h
    cases hr : insertBy (sortByDate E) x acc with
    | error e2 =>
      rw [hr] at h
      cases h
      exact insertBy_error E x acc _ hr
    | ok acc2 =>
      rw [hr] at h
      exact sortInto_error E xs acc2 _ h

theorem arraySort_error (E : Env) (l : List JVal) (e : Thrown)
    (h : arraySort (sortByDate E) l = .error e) : e = .typeError :=
  sortInto_error E l [] e h

theorem delivered_response (E : Env) (statusCode message : JVal) :
    Delivered (.callback .null (response E statusCode message)) :=
  ⟨statusCode, jsonStringify E message, rfl⟩

theorem delivered_onRejected_obj (E : Env) (props : List (JsString × JVal)) :
    Delivered (onRejected E (.value (.obj props))) := by
  simp only [onRejected, getProp_obj]
  exact delivered_response E _ _

theorem delivered_onRejected_typeError (E : Env) : Delivered (onRejected E .typeError) :=
  ⟨_, _, rfl⟩

theorem delivered_thenCatch (E : Env) (settled : Except (List (JsString × JVal)) JVal)
    (f : JVal → Except Thrown Outcome)
    (hok : ∀ res o, settled = .ok res → f res = .ok o → Delivered o)
    (herr : ∀ res e, f res = .error e → e = .typeError) :
    Delivered (thenCatch E settled f) := by
  cases settled with
  | error err => exact delivered_onRejected_obj E err
  | ok res =>
    simp only [thenCatch]
    cases hf : f res with
    | ok o => exact hok res o rfl hf
    | error e =>
      rw [herr res e hf]
      exact delivered_onRejected_typeError E

theorem fieldRequired_of_falsyOrString {reqBody : JVal} {k : JsString}
    (h : FalsyOrString reqBody k) : ∃ b, fieldRequired reqBody k = .ok b := by
  obtain ⟨v, hv, hf | ⟨s, rfl⟩⟩ := h
  · exact ⟨true, by simp [fieldRequired, hv, hf]⟩
  · cases s with
    | nil => exact ⟨true, by simp [fieldRequired, hv, truthy]⟩
    | cons a t => exact ⟨_, by simp [fieldRequired, hv, truthy, callTrim]; rfl⟩

theorem delivered_createProduct (E : Env) (db : Db) (event : Event) (userId reqBody : JVal)
    (hu : getProp event.pathParameters (js "userId") = .ok userId)
    (hb : event.bodyParsed = .ok reqBody)
    (hf : ∀ k ∈ requiredFields, FalsyOrString reqBody k) :
    Delivered (createProduct E db event).outcome := by
  obtain ⟨b1, h1⟩ := fieldRequired_of_falsyOrString (hf (js "name") (by simp [requiredFields]))
  obtain ⟨b2, h2⟩ := fieldRequired_of_falsyOrString (hf (js "imageUrl") (by simp [requiredFields]))
  obtain ⟨b3, h3⟩ := fieldRequired_of_falsyOrString
    (hf (js "description") (by simp [requiredFields]))
  obtain ⟨b4, h4⟩ := fieldRequired_of_falsyOrString (hf (js "price") (by simp [requiredFields]))
  obtain ⟨v1, g1, _⟩ := hf (js "name") (by simp [requiredFields])
  obtain ⟨v2, g2, _⟩ := hf (js "imageUrl") (by simp [requiredFields])
  obtain ⟨v3, g3, _⟩ := hf (js "description") (by simp [requiredFields])
  obtain ⟨v4, g4, _⟩ := hf (js "price") (by simp [requiredFields])
  simp only [createProduct, hb, hu, h1, h2, h3, h4, mkProduct, g1, g2, g3, g4]
  split
  · exact delivered_response E _ _
  · dsimp only
    apply delivered_thenCatch
    · intro res o _ ho
      cases ho
      exact delivered_response E _ _
    · intro res e he
      cases he

theorem delivered_getProductsByUserId (E : Env) (db : Db) (event : Event) (userId : JVal)
    (hu : getProp event.pathParameters (js "userId") = .ok userId) :
    Delivered (getProductsByUserId E db event).outcome := by
  simp only [getProductsByUserId, hu]
  apply delivered_thenCatch
  · intro res o _ ho
    split at ho
    · cases ho
    · split at ho
      · cases ho
      · split at ho
        · cases ho
        · cases ho
          exact delivered_response E _ _
  · intro res e he
    split at he
    · rename_i e1 h1
      cases he
      exact getProp_error h1
    · split at he
      · rename_i _ items _ _ e2 h2
        cases he
        cases items with
        | arr xs =>
          exact arrayFilter_error _ (fun x e3 h3 => by
            split at h3
            · rename_i e4 h4
              cases h3
              exact getProp_error h4
            · cases h3) xs _ h2
        | undefined => simp only [callFilter] at h2; cases h2; rfl
        | null => simp only [callFilter] at h2; cases h2; rfl
        | bool b => simp only [callFilter] at h2; cases h2; rfl
        | num q => simp only [callFilter] at h2; cases h2; rfl
        | str s => simp only [callFilter] at h2; cases h2; rfl
        | obj props => simp only [callFilter] at h2; cases h2; rfl
      · split at he
        · rename_i e5 h5
          cases he
          exact arraySort_error E _ _ h5
        · cases he

theorem delivered_getProduct (E : Env) (db : Db) (event : Event) (id : JVal)
    (hid : getProp event.pathParameters (js "id") = .ok id)
    (hfound : ∀ res item,
      db ⟨.get, .obj [(js "TableName", E.productsTable), (js "Key", .obj [(js "id", id)])]⟩ =
        .ok res →
      getProp res (js "Item") = .ok item → truthy item = true) :
    Delivered (getProduct E db event).outcome := by
  simp only [getProduct, hid]
  apply delivered_thenCatch
  · intro res o hres ho
    split at ho
    · cases ho
    · rename_i item hitem
      rw [hfound res item hres hitem] at ho
      cases ho
      exact delivered_response E _ _
  · intro res e he
    split at he
    · rename_i e1 h1
      cases he
      exact getProp_error h1
    · split at he <;> cases he

theorem delivered_updateProduct (E : Env) (db : Db) (event : Event) (id reqBody : JVal)
    (hid : getProp event.pathParameters (js "id") = .ok id)
    (hb : event.bodyParsed = .ok reqBody)
    (hnull : reqBody ≠ .null) (hundef : reqBody ≠ .undefined) :
    Delivered (updateProduct E db event).outcome := by
  have hent : objectEntries reqBody = .ok (ownEntries reqBody) := by
    cases reqBody <;> first | rfl | exact absurd rfl hnull | exact absurd rfl hundef
  simp only [updateProduct, hid, hb, generateUpdateQuery, hent]
  apply delivered_thenCatch
  · intro res o _ ho
    split at ho
    · cases ho
    · cases ho
      exact delivered_response E _ _
  · intro res e he
    split at he
    · rename_i e1 h1
      cases he
      exact getProp_error h1
    · cases he

theorem delivered_deleteProduct (E : Env) (db : Db) (event : Event) (id : JVal)
    (hid : getProp event.pathParameters (js "id") = .ok id) :
    Delivered (deleteProduct E db event).outcome := by
  simp only [deleteProduct, hid]
  apply delivered_thenCatch
  · intro res o _ ho
    cases ho
    exact delivered_response E _ _
  · intro res e he
    cases he

/-- C7 (as amended): for every settlement of the store request (fulfilment
with any value, rejection with any error object) each of the five handlers
completes by handing a response envelope to the completion callback with
error argument `null`, nothing is thrown and the returned promise does not
reject, provided the path parameters are present, and for `createProduct` the
body text is valid JSON whose name, imageUrl, description and price are each
absent, falsy or a string, for `updateProduct` the body text is valid JSON
other than `null`, and for `getProduct` the lookup does not come back without
an item. -/
theorem handlers_deliver (E : Env) (db : Db) (event : Event) :
    (∀ userId reqBody, getProp event.pathParameters (js "userId") = .ok userId →
      event.bodyParsed = .ok reqBody → (∀ k ∈ requiredFields, FalsyOrString reqBody k) →
      Delivered (createProduct E db event).outcome) ∧
    (∀ userId, getProp event.pathParameters (js "userId") = .ok userId →
      Delivered (getProductsByUserId E db event).outcome) ∧
    (∀ id, getProp event.pathParameters (js "id") = .ok id →
      (∀ res item,
        db ⟨.get, .obj [(js "TableName", E.productsTable), (js "Key", .obj [(js "id", id)])]⟩ =
          .ok res →
        getProp res (js "Item") = .ok item → truthy item = true) →
      Delivered (getProduct E db event).outcome) ∧
    (∀ id reqBody, getProp event.pathParameters (js "id") = .ok id →
      event.bodyParsed = .ok reqBody → reqBody ≠ .null → reqBody ≠ .undefined →
      Delivered (updateProduct E db event).outcome) ∧
    (∀ id, getProp event.pathParameters (js "id") = .ok id →
      Delivered (deleteProduct E db event).outcome) :=
  ⟨fun userId reqBody hu hb hf => delivered_createProduct E db event userId reqBody hu hb hf,
   fun userId hu => delivered_getProductsByUserId E db event userId hu,
   fun id hid hfound => delivered_getProduct E db event id hid hfound,
   fun id reqBody hid hb h1 h2 => delivered_updateProduct E db event id reqBody hid hb h1 h2,
   fun id hid => delivered_deleteProduct E db event id hid⟩

/-- C7 (counterexample): `createProduct` and `updateProduct` throw, without
issuing a store request and without invoking the callback, when the body text
is not valid JSON (the `SyntaxError` of `JSON.parse`), when it parses to
`null`, and for `createProduct` when `price` is a number. -/
theorem handlers_throw_on_bad_body :
    createProduct sampleEnv (Store.db sampleLimits sampleStore) ⟨.error .syntaxError, samplePath⟩ =
      ⟨[], .threw .syntaxError⟩ ∧
    createProduct sampleEnv (Store.db sampleLimits sampleStore) ⟨.ok .null, samplePath⟩ =
      ⟨[], .threw .typeError⟩ ∧
    createProduct sampleEnv (Store.db sampleLimits sampleStore) ⟨.ok sampleNumericPriceBody, samplePath⟩ =
      ⟨[], .threw .typeError⟩ ∧
    updateProduct sampleEnv (Store.db sampleLimits sampleStore) ⟨.error .syntaxError, samplePath⟩ =
      ⟨[], .threw .syntaxError⟩ ∧
    updateProduct sampleEnv (Store.db sampleLimits sampleStore) ⟨.ok .null, samplePath⟩ =
      ⟨[], .threw .typeError⟩ :=
  ⟨rfl, rfl, rfl, rfl, rfl⟩

theorem getProduct_outcomes (E : Env) (L : Limits) (s : Store) (body : Except Thrown JVal)
    (pathParameters : JVal) (id : JsString)
    (hid : getProp pathParameters (js "id") = .ok (.str id)) :
    (Store.find s id = none →
      (getProduct E (Store.db L s) ⟨body, pathParameters⟩).outcome =
        .callback (.num 404)
          (.obj [(js "statusCode", .obj [(js "error", .str (js "Product not found .."))]),
                 (js "headers", corsHeaders), (js "body", .undefined)])) ∧
    (∀ props, Store.find s id = some (.obj props) →
      (getProduct E (Store.db L s) ⟨body, pathParameters⟩).outcome =
        .callback .null
          (.obj [(js "statusCode", .num 200), (js "headers", corsHeaders),
                 (js "body", .str (E.stringify (.obj props)))])) := by
  constructor
  · intro hfind
    have hitem : getProp (.obj []) (js "Item") = .ok .undefined := rfl
    simp only [getProduct, hid, Store.db, exec_get_none _ _ _ _ hfind, thenCatch, hitem, truthy,
      Bool.false_eq_true, if_false, response, envelope, jsonStringify]
  · intro props hfind
    have hitem : getProp (.obj [(js "Item", .obj props)]) (js "Item") = .ok (.obj props) := rfl
    simp only [getProduct, hid, Store.db, exec_get_some _ _ _ _ _ hfind, thenCatch, hitem, truthy,
      if_true, response, envelope, jsonStringify]

/-! ## Closed instances -/

/-- C6 (what the code does at the failing input): the table holds no item of
id "p9", and `getProduct` issues its one `get` request and then invokes the
callback with `404` as its error argument and, as result, an envelope whose
`statusCode` is the error object and whose `body` is `undefined`; it is not
the envelope of status 404 delivered with error `null`.  For the id "p1",
which the table holds, it delivers status 200 with the item. -/
theorem getProduct_not_found_malformed :
    Store.find sampleStore (js "p9") = none ∧
    getProduct sampleEnv (Store.db sampleLimits sampleStore) ⟨.ok .null, .obj [(js "id", .str (js "p9"))]⟩ =
      ⟨[⟨.get, .obj [(js "TableName", .str (js "products")),
                    (js "Key", .obj [(js "id", .str (js "p9"))])]⟩],
       .callback (.num 404)
        (.obj [(js "statusCode", .obj [(js "error", .str (js "Product not found .."))]),
               (js "headers", corsHeaders), (js "body", .undefined)])⟩ ∧
    (getProduct sampleEnv (Store.db sampleLimits sampleStore) ⟨.ok .null, samplePath⟩).outcome =
      .callback .null
        (.obj [(js "statusCode", .num 200), (js "headers", corsHeaders),
               (js "body", .str (sampleEnv.stringify sampleProduct))]) :=
  ⟨rfl, rfl, rfl⟩

theorem createProduct_invalid_400_witness :
    createProduct sampleEnv (Store.db sampleLimits sampleStore) ⟨.ok sampleInvalidBody, samplePath⟩ =
      ⟨[], .callback .null
        (.obj [(js "statusCode", .num 400), (js "headers", corsHeaders),
               (js "body", .str (sampleEnv.stringify (.obj [(js "error",
                  .str (js "Product must contains: name, image url, description and price"))])))])⟩ :=
  createProduct_invalid_400 sampleEnv (Store.db sampleLimits sampleStore) samplePath (.str (js "u1"))
    sampleInvalidBody rfl
    (by
      intro k hk
      simp only [requiredFields, List.mem_cons, List.mem_singleton, List.not_mem_nil,
        or_false] at hk
      rcases hk with rfl | rfl | rfl | rfl
      · exact Or.inr ⟨_, rfl⟩
      · exact Or.inr ⟨_, rfl⟩
      · exact Or.inl rfl
      · exact Or.inr ⟨_, rfl⟩)
    ⟨js "imageUrl", by simp [requiredFields], Or.inr ⟨js "   ", rfl, by decide⟩⟩

theorem createProduct_valid_201_witness :
    createProduct sampleEnv (Store.db sampleLimits sampleStore) ⟨.ok sampleValidBody, samplePath⟩ =
      ⟨[⟨.put, .obj [(js "TableName", .str (js "products")), (js "Item",
          .obj [(js "id", .str (js "id-1")), (js "createdAt", .str (js "2024-01-01T00:00:00.000Z")),
                (js "userId", .str (js "u1")),
                (js "name", .str (js " Mug ")), (js "imageUrl", .str (js "http://img/mug.png")),
                (js "description", .str (js "A mug")), (js "price", .str (js "10"))])]⟩],
       .callback .null
        (.obj [(js "statusCode", .num 201), (js "headers", corsHeaders),
               (js "body", .str (sampleEnv.stringify
          (.obj [(js "id", .str (js "id-1")), (js "createdAt", .str (js "2024-01-01T00:00:00.000Z")),
                (js "userId", .str (js "u1")),
                (js "name", .str (js " Mug ")), (js "imageUrl", .str (js "http://img/mug.png")),
                (js "description", .str (js "A mug")), (js "price", .str (js "10"))])))])⟩ :=
  createProduct_valid_201 sampleEnv (Store.db sampleLimits sampleStore) samplePath (.str (js "u1"))
    sampleValidBody (.obj []) (js " Mug ") (js "http://img/mug.png") (js "A mug") (js "10")
    rfl rfl (by decide) rfl (by decide) rfl (by decide) rfl (by decide) rfl

theorem not_newerThan {a b : JVal} {ka kb : JsString}
    (ha : getProp a (js "createdAt") = .ok (.str ka))
    (hb : getProp b (js "createdAt") = .ok (.str kb)) (h : strLt kb ka = false) :
    ¬ NewerThan a b := by
  rintro ⟨x, y, hx, hy, hlt⟩
  rw [ha] at hx
  rw [hb] at hy
  cases hx
  cases hy
  rw [h] at hlt
  cases hlt

theorem getProductsByUserId_sorted_witness :
    getProductsByUserId sampleEnv (Store.db sampleLimits sampleTable) ⟨.ok .null, samplePath⟩ =
      ⟨[⟨.scan, .obj [(js "TableName", .str (js "products"))]⟩],
       .callback .null
        (.obj [(js "statusCode", .num 200), (js "headers", corsHeaders),
               (js "body", .str (sampleEnv.stringify (.arr [sampleItemC, sampleItemA])))])⟩ := by
  obtain ⟨sorted, hrun, _, hperm, _, hsorted, _⟩ :=
    getProductsByUserId_sorted sampleEnv (Store.db sampleLimits sampleTable) (.ok .null)
      samplePath (.obj [(js "Items", .arr sampleTable)]) (js "u1") sampleTable rfl rfl rfl
      (by
        intro it hit
        simp only [sampleTable, List.mem_cons, List.mem_singleton, List.not_mem_nil,
          or_false] at hit
        rcases hit with rfl | rfl | rfl <;> exact ⟨_, rfl⟩)
      (by
        intro it hit _
        simp only [sampleTable, List.mem_cons, List.mem_singleton, List.not_mem_nil,
          or_false] at hit
        rcases hit with rfl | rfl | rfl <;> exact ⟨_, rfl⟩)
      (by
        have hAB : getProp sampleItemB (js "userId") ≠ .ok (.str (js "u1")) := by
          intro h
          have h2 : js "u2" = js "u1" := JVal.str.inj (Except.ok.inj h)
          exact absurd h2 (by decide)
        have hAC : getProp sampleItemA (js "createdAt") ≠ getProp sampleItemC (js "createdAt") := by
          intro h
          have h2 : js "2023-05-01T10:00:00.000Z" = js "2024-02-11T08:30:00.001Z" :=
            JVal.str.inj (Except.ok.inj h)
          exact absurd h2 (by decide)
        refine List.pairwise_cons.2 ⟨?_, List.pairwise_cons.2 ⟨?_, List.pairwise_singleton _ _⟩⟩
        · intro b hb
          simp only [List.mem_cons, List.mem_singleton, List.not_mem_nil, or_false] at hb
          rcases hb with rfl | rfl
          · exact fun _ h _ => absurd h hAB
          · exact fun _ _ => hAC
        · intro b hb
          rw [List.mem_singleton] at hb
          subst hb
          exact fun h _ _ => absurd h hAB)
  have hf : sampleTable.filter (hasUserId (js "u1")) = [sampleItemA, sampleItemC] := rfl
  rw [hf] at hperm
  have hAA : ¬ NewerThan sampleItemA sampleItemA := not_newerThan rfl rfl (by decide)
  have hAC : ¬ NewerThan sampleItemA sampleItemC := not_newerThan rfl rfl (by decide)
  have hCC : ¬ NewerThan sampleItemC sampleItemC := not_newerThan rfl rfl (by decide)
  have hlen := hperm.length_eq
  have hsorted_eq : sorted = [sampleItemC, sampleItemA] := by
    match sorted, hperm, hsorted, hlen with
    | [x, y], hperm, hsorted, _ =>
      have hx : x ∈ [sampleItemA, sampleItemC] := hperm.mem_iff.1 (by simp)
      have hy : y ∈ [sampleItemA, sampleItemC] := hperm.mem_iff.1 (by simp)
      have hxy : NewerThan x y := (List.pairwise_cons.1 hsorted).1 y (by simp)
      simp only [List.mem_cons, List.mem_singleton, List.not_mem_nil, or_false] at hx hy
      rcases hx with rfl | rfl <;> rcases hy with rfl | rfl
      · exact absurd hxy hAA
      · exact absurd hxy hAC
      · rfl
      · exact absurd hxy hCC
  rw [hsorted_eq] at hrun
  exact hrun

theorem generateUpdateQuery_spec_witness :
    generateUpdateQuery (.obj [(js "price", .str (js "19.99")), (js "name", .str (js "Cup"))]) =
      .ok ⟨js "SET #price = :price, #name = :name",
           [(js "#price", .str (js "price")), (js "#name", .str (js "name"))],
           [(js ":price", .str (js "19.99")), (js ":name", .str (js "Cup"))]⟩ :=
  (generateUpdateQuery_spec [(js "price", .str (js "19.99")), (js "name", .str (js "Cup"))]
    (List.cons_ne_nil _ _) (by decide)).1

theorem updateProduct_merges_witness :
    (updateProduct sampleEnv (Store.db sampleLimits sampleStore)
        ⟨.ok (.obj [(js "price", .str (js "19.99"))]), samplePath⟩).outcome =
      .callback .null
        (.obj [(js "statusCode", .num 200), (js "headers", corsHeaders),
               (js "body", .str (sampleEnv.stringify (.obj [(js "price", .str (js "19.99"))])))]) ∧
    Store.find
      (Store.after sampleLimits sampleStore
        (updateProduct sampleEnv (Store.db sampleLimits sampleStore)
          ⟨.ok (.obj [(js "price", .str (js "19.99"))]), samplePath⟩).calls) (js "p1") =
      some (.obj [(js "id", .str (js "p1")),
         (js "createdAt", .str (js "2023-05-01T10:00:00.000Z")),
         (js "userId", .str (js "u1")), (js "name", .str (js "Mug")),
         (js "imageUrl", .str (js "http://img/mug.png")),
         (js "description", .str (js "A mug")), (js "price", .str (js "19.99"))]) :=
  have h := (updateProduct_merges sampleEnv sampleLimits sampleStore samplePath
    (.obj [(js "price", .str (js "19.99"))]) (js "p1") [(js "price", .str (js "19.99"))]
    rfl rfl (List.cons_ne_nil _ _) (by decide)
    (by
      intro k hk
      simp only [List.map_cons, List.map_nil, List.mem_singleton] at hk
      subst hk
      exact ⟨by decide, by decide, by decide⟩)
    rfl).1 _ rfl rfl
  ⟨h.1, h.2.1⟩

theorem create_then_get_roundtrip_witness :
    (getProduct sampleEnv
        (Store.db sampleLimits (Store.after sampleLimits sampleStore
          (createProduct sampleEnv (Store.db sampleLimits sampleStore) ⟨.ok sampleValidBody, samplePath⟩).calls))
        ⟨.ok .null, .obj [(js "id", .str (js "id-1"))]⟩).outcome =
      .callback .null
        (.obj [(js "statusCode", .num 200), (js "headers", corsHeaders),
               (js "body", .str (sampleEnv.stringify
                  (productOf sampleEnv (.str (js "u1")) (js " Mug ") (js "http://img/mug.png")
                    (js "A mug") (js "10"))))]) :=
  (create_then_get_roundtrip sampleEnv sampleLimits sampleStore samplePath sampleValidBody (js "u1")
    (js " Mug ") (js "http://img/mug.png") (js "A mug") (js "10") (.ok .null)
    (.obj [(js "id", .str (js "id-1"))])
    rfl rfl (by decide) rfl (by decide) rfl (by decide) rfl (by decide) rfl).2.2

theorem deleteProduct_idempotent_witness :
    (deleteProduct sampleEnv (Store.db sampleLimits sampleStore) ⟨.ok .null, samplePath⟩).outcome =
      .callback .null
        (.obj [(js "statusCode", .num 200), (js "headers", corsHeaders),
               (js "body", .str (sampleEnv.stringify (.obj [(js "message",
                  .str (js "Product has been deleted successfully!"))])))]) ∧
    Store.find (Store.after sampleLimits sampleStore
      (deleteProduct sampleEnv (Store.db sampleLimits sampleStore) ⟨.ok .null, samplePath⟩).calls) (js "p1")
      = none :=
  have h := deleteProduct_idempotent sampleEnv sampleLimits sampleStore (.ok .null) samplePath (js "p1") rfl
  ⟨h.2.1, h.2.2.2.1⟩

theorem handlers_deliver_witness :
    Delivered (createProduct sampleEnv (Store.db sampleLimits sampleStore)
      ⟨.ok sampleInvalidBody, samplePath⟩).outcome ∧
    Delivered (getProductsByUserId sampleEnv (Store.db sampleLimits sampleStore)
      ⟨.ok sampleInvalidBody, samplePath⟩).outcome ∧
    Delivered (getProduct sampleEnv (Store.db sampleLimits sampleStore)
      ⟨.ok sampleInvalidBody, samplePath⟩).outcome ∧
    Delivered (updateProduct sampleEnv (Store.db sampleLimits sampleStore)
      ⟨.ok sampleInvalidBody, samplePath⟩).outcome ∧
    Delivered (deleteProduct sampleEnv (Store.db sampleLimits sampleStore)
      ⟨.ok sampleInvalidBody, samplePath⟩).outcome :=
  have h := handlers_deliver sampleEnv (Store.db sampleLimits sampleStore) ⟨.ok sampleInvalidBody, samplePath⟩
  ⟨h.1 (.str (js "u1")) sampleInvalidBody rfl rfl (by
      intro k hk
      simp only [requiredFields, List.mem_cons, List.mem_singleton, List.not_mem_nil,
        or_false] at hk
      rcases hk with rfl | rfl | rfl | rfl
      · exact ⟨_, rfl, Or.inr ⟨_, rfl⟩⟩
      · exact ⟨_, rfl, Or.inr ⟨_, rfl⟩⟩
      · exact ⟨_, rfl, Or.inl rfl⟩
      · exact ⟨_, rfl, Or.inr ⟨_, rfl⟩⟩),
   h.2.1 (.str (js "u1")) rfl,
   h.2.2.1 (.str (js "p1")) rfl (by
      intro res item hres hitem
      have hres2 : res = .obj [(js "Item", sampleProduct)] := (Except.ok.inj hres).symm
      subst hres2
      have hitem2 : item = sampleProduct := (Except.ok.inj hitem).symm
      subst hitem2
      rfl),
   h.2.2.2.1 (.str (js "p1")) sampleInvalidBody rfl rfl (by simp [sampleInvalidBody])
     (by simp [sampleInvalidBody]),
   h.2.2.2.2 (.str (js "p1")) rfl⟩

end Handler
